import Mathlib

/-!
Verification of the CESSCalculator structural-analysis core.

Shallow embedding of the solver sources over exact rationals:

* JS `number` is modelled as `ℚ`.  Decimal literals of the source
  (`1e-12`, `0.95`, the Gauss nodes, …) are read as exact decimal
  rationals.  `Math.abs` is `absQ`, `Math.max`/`Math.min` are
  `max`/`min`.
* A JS `throw` is an `Except.error` carrying a constructor that names
  the throw site (`SolveError`).
* A JS `Map` built by successive `set` calls is an insertion-ordered
  association list; lookup takes the most recent binding (`jsGet`).
* Array accesses are totalised with `List.getD` defaults; all theorems
  carry well-formedness hypotheses (valid cross references, distinct
  ids) under which the defaults are never consulted, matching the
  defined behaviour of the source.
* `Array.prototype.sort` with the `a.position - b.position` comparator
  is a stable ascending sort; it is embedded as a stable insertion
  sort (`sortedNodesOf`), used by the theorems only through the fact
  that it permutes the input.

Sources embedded: `src/lib/solver/beam/fem.ts`,
`src/lib/solver/beam/linearAlgebra.ts`, the continuous-beam solver
class, the frame solver's DOF assignment / assembly / displacement
solve, `src/lib/solver/frame/fem.ts`, the shared type helpers
(`getSpanEI`, `getMemberEI`, `getMemberEA`) and
`src/lib/validation/beamValidation.ts`.
-/

namespace CESS

/-- Decidable equality of `Except` values, so that concrete runs of
the embedded functions can be checked by `decide`. -/
instance {ε α : Type} [DecidableEq ε] [DecidableEq α] :
    DecidableEq (Except ε α) := fun x y =>
  match x, y with
  | .ok a, .ok b =>
    if h : a = b then isTrue (by rw [h])
    else isFalse (fun hc => h (by injection hc))
  | .error a, .error b =>
    if h : a = b then isTrue (by rw [h])
    else isFalse (fun hc => h (by injection hc))
  | .ok _, .error _ => isFalse (fun hc => Except.noConfusion hc)
  | .error _, .ok _ => isFalse (fun hc => Except.noConfusion hc)

/-- Embedding of `Math.abs` on rationals. -/
def absQ (q : ℚ) : ℚ := if q < 0 then -q else q

/-- The literal `1e-10` of the source, read exactly. -/
def eps10 : ℚ := 1 / 10 ^ 10

/-- The literal `1e-12` of the source, read exactly. -/
def eps12 : ℚ := 1 / 10 ^ 12

/-! ## Units and flexural-rigidity helpers (`src/lib/types/beam.ts`) -/

inductive EUnitKind | gpa | mpa | kpa | knm2
deriving DecidableEq

inductive IUnitKind | m4 | mm4 | cm4
deriving DecidableEq

inductive AUnitKind | m2 | mm2 | cm2
deriving DecidableEq

/-- Embedding of `convertEToKNm2`. -/
def convertEToKNm2 (E : ℚ) (u : EUnitKind) : ℚ :=
  match u with
  | .gpa => E * 1000000
  | .mpa => E * 1000
  | .kpa => E
  | .knm2 => E

/-- Embedding of `convertIToM4`. -/
def convertIToM4 (I : ℚ) (u : IUnitKind) : ℚ :=
  match u with
  | .m4 => I
  | .mm4 => I * (1 / 10 ^ 12)
  | .cm4 => I * (1 / 10 ^ 8)

/-- Embedding of `convertAToM2` (frame variant in `beamEditor.ts`). -/
def convertAToM2 (A : ℚ) (u : AUnitKind) : ℚ :=
  match u with
  | .m2 => A
  | .mm2 => A * (1 / 10 ^ 6)
  | .cm2 => A * (1 / 10 ^ 4)

/-- Embedding of `calculateEI`. -/
def calculateEI (E : ℚ) (eu : EUnitKind) (I : ℚ) (iu : IUnitKind) : ℚ :=
  convertEToKNm2 E eu * convertIToM4 I iu

/-! ## Beam data model (`src/lib/types/beam.ts`) -/

inductive SupportType | fixed | pinned | roller | free
deriving DecidableEq

structure NodeData where
  id : String
  position : ℚ
  supportType : SupportType
  settlement : Option ℚ := none
deriving DecidableEq

inductive EIMode | direct | multiplier | separate
deriving DecidableEq

structure SpanData where
  id : String
  nodeStartId : String
  nodeEndId : String
  length : ℚ
  eiMode : EIMode
  ei : Option ℚ := none
  iMultiplier : Option ℚ := none
  modE : Option ℚ := none
  inertiaI : Option ℚ := none
  eUnit : Option EUnitKind := none
  iUnit : Option IUnitKind := none
deriving DecidableEq

/-- Embedding of `getSpanEI`.  The source falls through to the
multiplier formula when `eiMode` is `direct` but `ei` is undefined. -/
def getSpanEI (span : SpanData) (defaultEI : ℚ) (defaultE : Option ℚ)
    (defaultEUnit : Option EUnitKind) (defaultI : Option ℚ)
    (defaultIUnit : Option IUnitKind) : ℚ :=
  if span.eiMode = .direct ∧ span.ei.isSome then span.ei.getD 0
  else if span.eiMode = .separate then
    calculateEI (span.modE.getD (defaultE.getD 200))
      (span.eUnit.getD (defaultEUnit.getD .gpa))
      (span.inertiaI.getD (defaultI.getD (1 / 10 ^ 4)))
      (span.iUnit.getD (defaultIUnit.getD .m4))
  else defaultEI * (span.iMultiplier.getD 1)

inductive BeamLoad
  | point (id spanId : String) (magnitude position : ℚ)
  | udl (id spanId : String) (magnitude startPosition endPosition : ℚ)
  | vdl (id spanId : String) (w1 w2 startPosition endPosition : ℚ)
  | moment (id spanId : String) (magnitude position : ℚ)
deriving DecidableEq

def BeamLoad.spanId : BeamLoad → String
  | .point _ s _ _ => s
  | .udl _ s _ _ _ => s
  | .vdl _ s _ _ _ _ => s
  | .moment _ s _ _ => s

structure ContinuousBeamData where
  nodes : List NodeData
  spans : List SpanData
  loads : List BeamLoad
  defaultE : Option ℚ := none
  defaultEUnit : Option EUnitKind := none
  defaultI : Option ℚ := none
  defaultIUnit : Option IUnitKind := none
  defaultEI : Option ℚ := none
deriving DecidableEq

/-- Error constructors, one per distinct throw site exercised by the
claims.  The specification groups `tooFewNodes`, `tooFewSpans` and
`insufficientRestraints` (the three `validateBeam` throws) under the
name `UnstableStructure`, and `singularMatrix` is its
`SingularMatrix`. -/
inductive SolveError
  | spanLengthNotPositive
  | matrixNotSquare
  | vectorLengthMismatch
  | singularMatrix (col : ℕ)
  | tooFewNodes
  | tooFewSpans
  | insufficientRestraints
deriving DecidableEq

/-! ## Fixed-end-moment library (`src/lib/solver/beam/fem.ts`) -/

/-- Value computed by `calculatePointLoadFEM` once the length check has
passed.  The position is clamped into `[0, L]` exactly as in the
source (`Math.max(0, Math.min(L, position))`). -/
def pointLoadFEMval (P L pos : ℚ) : ℚ × ℚ :=
  let a := max 0 (min L pos)
  let b := L - a
  let L2 := L * L
  (-(P * a * b * b) / L2, P * a * a * b / L2)

/-- Embedding of `calculatePointLoadFEM`. -/
def calculatePointLoadFEM (P L pos : ℚ) : Except SolveError (ℚ × ℚ) :=
  if L ≤ 0 then .error .spanLengthNotPositive
  else .ok (pointLoadFEMval P L pos)

/-- The 20-segment midpoint integration performed by the partial-UDL
branch of `calculateUDLFEM`: each segment is replaced by an equivalent
point load `dP = w·dx` at the segment midpoint.  (Inside this branch
the source calls `calculatePointLoadFEM`, which cannot throw because
`L > 0` was already checked.) -/
def udlMidpointSum (w L a b : ℚ) : ℚ × ℚ :=
  let dx := (b - a) / 20
  (List.range 20).foldl
    (fun acc i =>
      let xi := a + ((i : ℚ) + 1 / 2) * dx
      let fem := pointLoadFEMval (w * dx) L xi
      (acc.1 + fem.1, acc.2 + fem.2))
    (0, 0)

/-- Value computed by `calculateUDLFEM` once the length check has
passed. -/
def udlFEMval (w L s e : ℚ) : ℚ × ℚ :=
  let x1 := max 0 (min L s)
  let x2 := max 0 (min L e)
  let a := min x1 x2
  let b := max x1 x2
  if absQ (b - a) < eps10 then (0, 0)
  else if absQ a < eps10 ∧ absQ (b - L) < eps10 then
    (-(w * (L * L)) / 12, w * (L * L) / 12)
  else
    let loadLength := b - a
    if loadLength ≥ L * (95 / 100) then
      (-(w * (L * L)) / 12, w * (L * L) / 12)
    else udlMidpointSum w L a b

/-- Embedding of `calculateUDLFEM`. -/
def calculateUDLFEM (w L s e : ℚ) : Except SolveError (ℚ × ℚ) :=
  if L ≤ 0 then .error .spanLengthNotPositive
  else .ok (udlFEMval w L s e)

/-- The 10-point Gauss–Legendre table of `calculateVDLFEM`, with the
decimal literals read exactly. -/
def gaussPoints : List (ℚ × ℚ) :=
  [ (-(9739065285171717 : ℚ) / 10 ^ 16, (666713443086881 : ℚ) / 10 ^ 16),
    (-(8650633666889845 : ℚ) / 10 ^ 16, (1494513491505806 : ℚ) / 10 ^ 16),
    (-(6794095682990244 : ℚ) / 10 ^ 16, (2190863625159820 : ℚ) / 10 ^ 16),
    (-(4333953941292472 : ℚ) / 10 ^ 16, (2692667193099963 : ℚ) / 10 ^ 16),
    (-(1488743389816312 : ℚ) / 10 ^ 16, (2955242247147529 : ℚ) / 10 ^ 16),
    ((1488743389816312 : ℚ) / 10 ^ 16, (2955242247147529 : ℚ) / 10 ^ 16),
    ((4333953941292472 : ℚ) / 10 ^ 16, (2692667193099963 : ℚ) / 10 ^ 16),
    ((6794095682990244 : ℚ) / 10 ^ 16, (2190863625159820 : ℚ) / 10 ^ 16),
    ((8650633666889845 : ℚ) / 10 ^ 16, (1494513491505806 : ℚ) / 10 ^ 16),
    ((9739065285171717 : ℚ) / 10 ^ 16, (666713443086881 : ℚ) / 10 ^ 16) ]

/-- Value computed by `calculateVDLFEM` once the length check has
passed. -/
def vdlFEMval (w1 w2 L s e : ℚ) : ℚ × ℚ :=
  let a := max 0 (min L s)
  let b := max 0 (min L e)
  if absQ (b - a) < eps10 then (0, 0)
  else if absQ a < eps10 ∧ absQ (b - L) < eps10 then
    let wMin := min w1 w2
    let wMax := max w1 w2
    let wRect := wMin
    let wTri := wMax - wMin
    let femStart := -(wRect * (L * L)) / 12
    let femEnd := wRect * (L * L) / 12
    if wTri > 0 then
      if w2 > w1 then
        (femStart + -(wTri * (L * L)) / 20, femEnd + wTri * (L * L) / 30)
      else
        (femStart + -(wTri * (L * L)) / 30, femEnd + wTri * (L * L) / 20)
    else (femStart, femEnd)
  else
    let loadLength := b - a
    let L2 := L * L
    let halfLength := loadLength / 2
    let midPoint := (a + b) / 2
    gaussPoints.foldl
      (fun acc gp =>
        let x := midPoint + halfLength * gp.1
        let localT := (x - a) / loadLength
        let wx := w1 + (w2 - w1) * localT
        let dP := wx * halfLength * gp.2
        let xml := L - x
        (acc.1 + -(dP * x * xml * xml) / L2, acc.2 + dP * x * x * xml / L2))
      (0, 0)

/-- Embedding of `calculateVDLFEM` (the optional end position of the
source is made explicit; every call site of the repository passes
it). -/
def calculateVDLFEM (w1 w2 L s e : ℚ) : Except SolveError (ℚ × ℚ) :=
  if L ≤ 0 then .error .spanLengthNotPositive
  else .ok (vdlFEMval w1 w2 L s e)

/-- Value computed by `calculateMomentFEM` once the length check has
passed. -/
def momentFEMval (M L pos : ℚ) : ℚ × ℚ :=
  let a := max 0 (min L pos)
  let b := L - a
  let L2 := L * L
  (M * b * (L - 3 * a) / L2, M * a * (3 * a - L) / L2)

/-- Embedding of `calculateMomentFEM`. -/
def calculateMomentFEM (M L pos : ℚ) : Except SolveError (ℚ × ℚ) :=
  if L ≤ 0 then .error .spanLengthNotPositive
  else .ok (momentFEMval M L pos)

/-- Dispatch on the load tag, as in the body of `calculateSpanFEM`. -/
def loadFEM (L : ℚ) : BeamLoad → Except SolveError (ℚ × ℚ)
  | .point _ _ m p => calculatePointLoadFEM m L p
  | .udl _ _ m s e => calculateUDLFEM m L s e
  | .vdl _ _ w1 w2 s e => calculateVDLFEM w1 w2 L s e
  | .moment _ _ m p => calculateMomentFEM m L p

/-- Embedding of `calculateSpanFEM`: total `(femStart, femEnd)` of the
loads referencing the span, failing on the first load whose FEM
computation throws. -/
def calculateSpanFEM (span : SpanData) (loads : List BeamLoad) :
    Except SolveError (ℚ × ℚ) :=
  (loads.filter (fun l => l.spanId = span.id)).foldlM
    (fun acc l => (loadFEM span.length l).map (fun f => (acc.1 + f.1, acc.2 + f.2)))
    (0, 0)

/-! ## Linear algebra kernel (`src/lib/solver/beam/linearAlgebra.ts`) -/

/-- Read entry `j` of a row (out-of-range reads default to `0`; the
theorems' well-formedness hypotheses keep every read in range). -/
def getQ (row : List ℚ) (j : ℕ) : ℚ := row.getD j 0

/-- Read row `i` of a matrix. -/
def getRow (m : List (List ℚ)) (i : ℕ) : List ℚ := m.getD i []

/-- Embedding of `createZeroMatrix`. -/
def createZeroMatrix (rows cols : ℕ) : List (List ℚ) :=
  List.replicate rows (List.replicate cols 0)

/-- Embedding of `createZeroVector`. -/
def createZeroVector (n : ℕ) : List ℚ := List.replicate n 0

/-- Add `v` to entry `(i, j)` of a matrix. -/
def matAdd (m : List (List ℚ)) (i j : ℕ) (v : ℚ) : List (List ℚ) :=
  m.set i ((getRow m i).set j (getQ (getRow m i) j + v))

/-- Add `v` to entry `i` of a vector. -/
def vecAdd (vec : List ℚ) (i : ℕ) (v : ℚ) : List ℚ :=
  vec.set i (vec.getD i 0 + v)

/-- The pivot search of `solveLinearSystem`: starting from row `col`,
scan rows `col+1 … n-1` and keep the first row whose entry in column
`col` has strictly larger magnitude.  Returns `(maxRow, maxVal)`. -/
def findPivot (aug : List (List ℚ)) (col n : ℕ) : ℕ × ℚ :=
  (List.range' (col + 1) (n - (col + 1))).foldl
    (fun acc row =>
      let v := absQ (getQ (getRow aug row) col)
      if v > acc.2 then (row, v) else acc)
    (col, absQ (getQ (getRow aug col) col))

/-- Row swap of the augmented matrix (the destructuring assignment of
the source). -/
def swapRows (m : List (List ℚ)) (i j : ℕ) : List (List ℚ) :=
  (m.set i (getRow m j)).set j (getRow m i)

/-- One row update of the elimination inner loop:
`r[j] -= factor * pivotRow[j]` for `j = col … n`. -/
def elimRow (pivotRow : List ℚ) (col n : ℕ) (r : List ℚ) : List ℚ :=
  let factor := getQ r col / getQ pivotRow col
  (List.range' col (n + 1 - col)).foldl
    (fun row j => row.set j (getQ row j - factor * getQ pivotRow j)) r

/-- Eliminate the entries below the pivot of column `col`. -/
def elimBelow (aug : List (List ℚ)) (col n : ℕ) : List (List ℚ) :=
  (List.range' (col + 1) (n - (col + 1))).foldl
    (fun m row => m.set row (elimRow (getRow m col) col n (getRow m row)))
    aug

/-- One column of forward elimination: pivot search, swap, the
`< 1e-12` singularity check of the source, then elimination below. -/
def elimStep (n col : ℕ) (aug : List (List ℚ)) :
    Except SolveError (List (List ℚ)) :=
  let p := findPivot aug col n
  let aug1 := if p.1 ≠ col then swapRows aug col p.1 else aug
  if absQ (getQ (getRow aug1 col) col) < eps12 then
    .error (.singularMatrix col)
  else .ok (elimBelow aug1 col n)

/-- Forward elimination over columns `col … n-1`. -/
def forwardElim (n : ℕ) (col : ℕ) (aug : List (List ℚ)) :
    Except SolveError (List (List ℚ)) :=
  if h : col < n then (elimStep n col aug).bind (forwardElim n (col + 1))
  else .ok aug
termination_by n - col

/-- `elimFrom n col k aug` performs `k` columns of forward elimination
starting at column `col`; `elimFrom n 0 c` names the intermediate
state at which a singularity is detected at column `c`. -/
def elimFrom (n : ℕ) : ℕ → ℕ → List (List ℚ) → Except SolveError (List (List ℚ))
  | _, 0, aug => .ok aug
  | col, k + 1, aug =>
    (elimStep n col aug).bind (fun aug2 => elimFrom n (col + 1) k aug2)

/-- The largest magnitude remaining in column `col` (rows
`col … n-1`) — the quantity the specification calls the pivot
magnitude after partial pivoting. -/
def colMaxAbs (aug : List (List ℚ)) (col n : ℕ) : ℚ :=
  ((List.range' (col + 1) (n - (col + 1))).map
      (fun row => absQ (getQ (getRow aug row) col))).foldl
    max (absQ (getQ (getRow aug col) col))

/-- Back-substitution accumulator: processes rows `k-1 … 0`, keeping
the already computed tail `x[row+1 … n-1]`. -/
def backSubGo (aug : List (List ℚ)) (n : ℕ) : ℕ → List ℚ → List ℚ
  | 0, xs => xs
  | k + 1, xs =>
    let row := k
    let r := getRow aug row
    let s := getQ r n -
      ((List.range' (row + 1) (n - (row + 1))).map
          (fun j => getQ r j * xs.getD (j - (row + 1)) 0)).sum
    backSubGo aug n k (s / getQ r row :: xs)

/-- Back substitution of `solveLinearSystem`. -/
def backSub (aug : List (List ℚ)) (n : ℕ) : List ℚ := backSubGo aug n n []

/-- Embedding of `solveLinearSystem`: dimension checks, augmented
matrix `[A|b]`, forward elimination with partial pivoting, back
substitution. -/
def solveLinearSystem (A : List (List ℚ)) (b : List ℚ) :
    Except SolveError (List ℚ) :=
  let n := A.length
  if n = 0 then .ok []
  else if (A.headD []).length ≠ n then .error .matrixNotSquare
  else if b.length ≠ n then .error .vectorLengthMismatch
  else
    let augmented := List.zipWith (fun row bi => row ++ [bi]) A b
    (forwardElim n 0 augmented).map (fun aug => backSub aug n)

/-! ## Continuous beam solver (slope-deflection method) -/

/-- Lookup in a JS `Map` modelled as an insertion-ordered association
list: the most recently set binding wins. -/
def jsGet {κ α : Type} [DecidableEq κ] (m : List (κ × α)) (k : κ) : Option α :=
  (m.reverse.find? (fun p => p.1 = k)).map (·.2)

/-- Stable insertion of a node into a position-sorted list (keeps the
original relative order of equal positions, as the stable
`Array.prototype.sort` of the source does). -/
def insertByPos (x : NodeData) : List NodeData → List NodeData
  | [] => [x]
  | y :: ys =>
    if x.position ≤ y.position then x :: y :: ys else y :: insertByPos x ys

/-- Embedding of step 1 of `solve`: the nodes sorted ascending by
position (stable).  The theorems use it only through the fact that it
permutes `beam.nodes`. -/
def sortedNodesOf (beam : ContinuousBeamData) : List NodeData :=
  beam.nodes.foldr insertByPos []

/-- The `nodeIndexMap` of the solver: id of a sorted node to its index
(last binding wins, as for a JS `Map`). -/
def nodeIndexMap (sorted : List NodeData) : List (String × ℕ) :=
  sorted.enum.map (fun p => (p.2.id, p.1))

def defaultNode : NodeData := { id := "", position := 0, supportType := .free }

/-- Restraint count of a support, as in `validateBeam`. -/
def restraintsOf (s : SupportType) : ℕ :=
  match s with
  | .fixed => 2
  | .pinned => 1
  | .roller => 1
  | .free => 0

/-- Embedding of `ContinuousBeamSolver.validateBeam`. -/
def validateBeam (beam : ContinuousBeamData) (sorted : List NodeData) :
    Except SolveError Unit :=
  if sorted.length < 2 then .error .tooFewNodes
  else if beam.spans.length < 1 then .error .tooFewSpans
  else if (sorted.map (fun n => restraintsOf n.supportType)).sum < 2 then
    .error .insufficientRestraints
  else .ok ()

/-- Embedding of `calculateAllFEM`: per-span FEM keyed by span id. -/
def femAll (beam : ContinuousBeamData) :
    Except SolveError (List (String × (ℚ × ℚ))) :=
  beam.spans.mapM
    (fun s => (calculateSpanFEM s beam.loads).map (fun f => (s.id, f)))

/-- Embedding of `identifyDOFs`: nodes whose rotation is unknown. -/
def identifyDOFs (sorted : List NodeData) : List NodeData :=
  sorted.filter (fun n => n.supportType ≠ .fixed)

/-- Embedding of `getChordRotation`. -/
def getChordRotation (startNode endNode : NodeData) (L : ℚ) : ℚ :=
  (endNode.settlement.getD 0 - startNode.settlement.getD 0) / L

/-- Effective EI of a span inside the solver (the defaults come from
the beam document, `defaultEI` falling back to `50000`). -/
def spanEIof (beam : ContinuousBeamData) (span : SpanData) : ℚ :=
  getSpanEI span (beam.defaultEI.getD 50000) beam.defaultE beam.defaultEUnit
    beam.defaultI beam.defaultIUnit

/-- Stiffness/load contribution of one span in `buildSystem`. -/
def buildSystemStep (beam : ContinuousBeamData) (sorted : List NodeData)
    (dofIndex : List (String × ℕ)) (femBySpan : List (String × (ℚ × ℚ)))
    (acc : List (List ℚ) × List ℚ) (span : SpanData) :
    List (List ℚ) × List ℚ :=
  let startNode := sorted.getD ((jsGet (nodeIndexMap sorted) span.nodeStartId).getD 0) defaultNode
  let endNode := sorted.getD ((jsGet (nodeIndexMap sorted) span.nodeEndId).getD 0) defaultNode
  let EI := spanEIof beam span
  let k := EI / span.length
  let fem := (jsGet femBySpan span.id).getD (0, 0)
  let psi := getChordRotation startNode endNode span.length
  let sIdx := jsGet dofIndex span.nodeStartId
  let eIdx := jsGet dofIndex span.nodeEndId
  let acc1 :=
    match sIdx with
    | none => acc
    | some i =>
      let K1 := matAdd acc.1 i i (4 * k)
      let K2 := match eIdx with
        | some j => matAdd K1 i j (2 * k)
        | none => K1
      let F1 := vecAdd acc.2 i (-fem.1)
      let F2 := match eIdx with
        | some _ => F1
        | none => vecAdd F1 i (6 * k * psi)
      (K2, F2)
  match eIdx with
  | none => acc1
  | some j =>
    let K1 := matAdd acc1.1 j j (4 * k)
    let K2 := match sIdx with
      | some i => matAdd K1 j i (2 * k)
      | none => K1
    let F1 := vecAdd acc1.2 j (-fem.2)
    let F2 := match sIdx with
      | none => vecAdd F1 j (6 * k * psi)
      | some _ => F1
    (K2, F2)

/-- Embedding of `ContinuousBeamSolver.buildSystem`. -/
def buildSystem (beam : ContinuousBeamData) (sorted : List NodeData)
    (dofNodes : List NodeData) (femBySpan : List (String × (ℚ × ℚ))) :
    List (List ℚ) × List ℚ :=
  let n := dofNodes.length
  let dofIndex := (dofNodes.enum.map (fun p => (p.2.id, p.1)))
  beam.spans.foldl (buildSystemStep beam sorted dofIndex femBySpan)
    (createZeroMatrix n n, createZeroVector n)

structure SpanEndMoments where
  spanId : String
  mStart : ℚ
  mEnd : ℚ
deriving DecidableEq

structure SupportReaction where
  nodeId : String
  position : ℚ
  vertical : ℚ
  moment : Option ℚ
deriving DecidableEq

/-- Embedding of `calculateEndMoments`: the slope-deflection equations
evaluated span by span. -/
def calculateEndMoments (beam : ContinuousBeamData) (sorted : List NodeData)
    (rotations : List (String × ℚ)) (femBySpan : List (String × (ℚ × ℚ))) :
    List SpanEndMoments :=
  beam.spans.map (fun span =>
    let startNode := sorted.getD ((jsGet (nodeIndexMap sorted) span.nodeStartId).getD 0) defaultNode
    let endNode := sorted.getD ((jsGet (nodeIndexMap sorted) span.nodeEndId).getD 0) defaultNode
    let EI := spanEIof beam span
    let k := EI / span.length
    let thetaStart := (jsGet rotations span.nodeStartId).getD 0
    let thetaEnd := (jsGet rotations span.nodeEndId).getD 0
    let psi := getChordRotation startNode endNode span.length
    let fem := (jsGet femBySpan span.id).getD (0, 0)
    { spanId := span.id
      mStart := fem.1 + 2 * k * (2 * thetaStart + thetaEnd - 3 * psi)
      mEnd := fem.2 + 2 * k * (2 * thetaEnd + thetaStart - 3 * psi) })

/-- Embedding of `findSpansAtNode`: spans touching a node, tagged with
whether the node is the span's start. -/
def findSpansAtNode (spans : List SpanData) (nodeId : String) :
    List (SpanData × Bool) :=
  spans.flatMap (fun s =>
    (if s.nodeStartId = nodeId then [(s, true)] else []) ++
    (if s.nodeEndId = nodeId then [(s, false)] else []))

/-- Embedding of `calculateLoadReaction`: simply-supported end
reaction of the loads on a span.  Caveat: `ℚ` totalizes the VDL
centroid's division by `3 * (w1 + w2)` to `0`, whereas the source
computes an infinite centroid and `NaN` reactions when
`w1 + w2 = 0`; likewise `(mStart - mEnd) / length` is `NaN`-prone for
a zero-length span.  Results about vertical reactions are therefore
stated only for beams whose spans have positive length and whose VDL
loads have `w1 + w2 ≠ 0`, where the embedding is faithful. -/
def calculateLoadReaction (loads : List BeamLoad) (span : SpanData)
    (isStart : Bool) : ℚ :=
  let L := span.length
  ((loads.filter (fun l => l.spanId = span.id)).map (fun l =>
    match l with
    | .point _ _ m a =>
      let b := L - a
      if isStart then m * b / L else m * a / L
    | .udl _ _ m s e =>
      let loadLength := e - s
      let loadCenter := (s + e) / 2
      let totalLoad := m * loadLength
      if isStart then totalLoad * (L - loadCenter) / L
      else totalLoad * loadCenter / L
    | .vdl _ _ w1 w2 s e =>
      let loadLength := e - s
      let avgIntensity := (w1 + w2) / 2
      let totalLoad := avgIntensity * loadLength
      let centroid := s + loadLength * (w1 + 2 * w2) / (3 * (w1 + w2))
      if isStart then totalLoad * (L - centroid) / L
      else totalLoad * centroid / L
    | .moment _ _ _ _ => 0)).sum

/-- Reaction record of one supported node in `calculateReactions`. -/
def reactionAtNode (beam : ContinuousBeamData)
    (endMoments : List SpanEndMoments) (node : NodeData) : SupportReaction :=
  let spansAtNode := findSpansAtNode beam.spans node.id
  let momentReaction : Option ℚ :=
    if node.supportType = .fixed then
      match spansAtNode.head? with
      | some (span, isStart) =>
        match endMoments.find? (fun m => m.spanId = span.id) with
        | some sm => some (if isStart then -sm.mStart else sm.mEnd)
        | none => none
      | none => none
    else none
  let vertical :=
    (spansAtNode.map (fun p =>
      match endMoments.find? (fun m => m.spanId = p.1.id) with
      | none => 0
      | some sm =>
        let rFromMoments := (sm.mStart - sm.mEnd) / p.1.length
        let rFromLoads := calculateLoadReaction beam.loads p.1 p.2
        if p.2 then rFromLoads - rFromMoments else rFromLoads + rFromMoments)).sum
  { nodeId := node.id, position := node.position, vertical := vertical
    moment := momentReaction }

/-- Embedding of `calculateReactions`: one reaction per supported
(non-free) node, in sorted order. -/
def calculateReactions (beam : ContinuousBeamData) (sorted : List NodeData)
    (endMoments : List SpanEndMoments) : List SupportReaction :=
  (sorted.filter (fun n => n.supportType ≠ .free)).map
    (reactionAtNode beam endMoments)

/-- Result of the beam solver.  The diagram samples, summary maxima
and the narrative calculation log of the source are presentation
output computed from these fields without further error handling; the
claims do not mention them and they are omitted here. -/
structure BeamResult where
  rotations : List (String × ℚ)
  endMoments : List SpanEndMoments
  reactions : List SupportReaction
deriving DecidableEq

/-- Rotation map produced by step 5 of `solve` when the system has
DOFs: fixed nodes get `0`, then each DOF node gets its solved value. -/
def rotationsFromTheta (sorted dofNodes : List NodeData) (theta : List ℚ) :
    List (String × ℚ) :=
  (sorted.filter (fun n => n.supportType = .fixed)).map (fun n => (n.id, (0 : ℚ)))
    ++ dofNodes.enum.map (fun p => (p.2.id, theta.getD p.1 0))

/-- Steps 6–7 of `solve`, shared by the zero-DOF and solved branches. -/
def mkBeamResult (beam : ContinuousBeamData) (sorted : List NodeData)
    (rotations : List (String × ℚ)) (femBySpan : List (String × (ℚ × ℚ))) :
    BeamResult :=
  let endMoments := calculateEndMoments beam sorted rotations femBySpan
  { rotations := rotations, endMoments := endMoments
    reactions := calculateReactions beam sorted endMoments }

namespace ContinuousBeamSolver

/-- Embedding of `ContinuousBeamSolver.solve`: sort, validate, FEM,
DOFs, assemble and solve the joint-rotation system, end moments and
reactions. -/
def solve (beam : ContinuousBeamData) : Except SolveError BeamResult :=
  let sorted := sortedNodesOf beam
  (validateBeam beam sorted).bind (fun _ =>
    (femAll beam).bind (fun femBySpan =>
      let dofNodes := identifyDOFs sorted
      if dofNodes.length = 0 then
        .ok (mkBeamResult beam sorted
          (sorted.map (fun n => (n.id, (0 : ℚ)))) femBySpan)
      else
        let KF := buildSystem beam sorted dofNodes femBySpan
        (solveLinearSystem KF.1 KF.2).map (fun theta =>
          mkBeamResult beam sorted
            (rotationsFromTheta sorted dofNodes theta) femBySpan)))

end ContinuousBeamSolver

/-- Vertical resultant of a load as the specification states it:
point-load magnitude, `w·(end−start)` for a UDL,
`(w1+w2)/2·(end−start)` for a VDL, zero for an applied moment. -/
def loadResultant : BeamLoad → ℚ
  | .point _ _ m _ => m
  | .udl _ _ m s e => m * (e - s)
  | .vdl _ _ w1 w2 s e => (w1 + w2) / 2 * (e - s)
  | .moment _ _ _ _ => 0

/-- Sum of all applied vertical loads of a beam document. -/
def totalAppliedLoad (beam : ContinuousBeamData) : ℚ :=
  (beam.loads.map loadResultant).sum

/-! ## Editor-level validation (`src/lib/validation/beamValidation.ts`) -/

inductive EditorLoadKind | point | udl | moment
deriving DecidableEq

/-- A load of the interactive beam editor (`lib/types/beamEditor.ts`).
The `start`/`end` fields are renamed `startPos`/`endPos` (`end` is a
Lean keyword); the `direction` field is not read by the validator and
is omitted. -/
structure EditorLoad where
  id : String
  kind : EditorLoadKind
  magnitude : ℚ
  position : Option ℚ := none
  startPos : Option ℚ := none
  endPos : Option ℚ := none
deriving DecidableEq

/-- An editor support; its `type` field is not read by the validator
and is omitted. -/
structure EditorSupport where
  id : String
  position : ℚ
deriving DecidableEq

structure BeamEditorState where
  length : ℚ
  ei : ℚ
  supports : List EditorSupport
  loads : List EditorLoad
deriving DecidableEq

/-- A validation error; the presentation `message` string of the
source is omitted, the `id` and `field` discriminators are kept. -/
structure BeamValidationError where
  id : String
  field : String
deriving DecidableEq

/-- JS `Array.prototype.indexOf` restricted to elements of the list. -/
def firstIdxOf (l : List ℚ) (x : ℚ) : ℕ :=
  (l.findIdx? (fun y => y = x)).getD l.length

/-- The per-load checks of `validateBeamEditor`, in source order:
point/moment position range, UDL boundary presence and range, UDL
ordering, UDL minimum length, nonzero magnitude. -/
def editorLoadErrors (len : ℚ) (load : EditorLoad) : List BeamValidationError :=
  (match load.kind, load.position with
   | .point, none => [⟨"load-" ++ load.id, "loads"⟩]
   | .moment, none => [⟨"load-" ++ load.id, "loads"⟩]
   | .point, some p =>
     if p < 0 ∨ p > len then [⟨"load-" ++ load.id, "loads"⟩] else []
   | .moment, some p =>
     if p < 0 ∨ p > len then [⟨"load-" ++ load.id, "loads"⟩] else []
   | .udl, _ => []) ++
  (if load.kind = .udl then
    (match load.startPos, load.endPos with
     | some a, some b =>
       (if a < 0 ∨ b > len then [⟨"load-" ++ load.id, "loads"⟩] else []) ++
       (if a ≥ b then [⟨"load-" ++ load.id, "loads"⟩] else []) ++
       (if b - a < 1 / 10 then [⟨"load-" ++ load.id, "loads"⟩] else [])
     | _, _ => [⟨"load-" ++ load.id, "loads"⟩])
   else []) ++
  (if load.magnitude = 0 then [⟨"load-" ++ load.id, "loads"⟩] else [])

/-- Embedding of `validateBeamEditor`: geometry, support count,
support positions, duplicate support positions, and per-load checks,
accumulated in source order. -/
def validateBeamEditor (state : BeamEditorState) : List BeamValidationError :=
  (if state.length ≤ 0 then [⟨"length", "length"⟩] else []) ++
  (if state.ei ≤ 0 then [⟨"ei", "ei"⟩] else []) ++
  (if state.supports.length < 2 then [⟨"supports-count", "supports"⟩] else []) ++
  state.supports.flatMap (fun s =>
    if s.position < 0 ∨ s.position > state.length then
      [⟨"support-" ++ s.id, "supports"⟩]
    else []) ++
  (let positions := state.supports.map (fun s => s.position)
   let dups := positions.enum.filter (fun p => firstIdxOf positions p.2 ≠ p.1)
   if dups ≠ [] then [⟨"support-duplicates", "supports"⟩] else []) ++
  state.loads.flatMap (editorLoadErrors state.length)

/-! ## Frame data model and solver
(`src/lib/types/beamEditor.ts` frame part, `src/lib/solver/frame/fem.ts`
and the `FrameAnalysisSolver` class) -/

inductive FrameSupportType | fixed | pinned | roller
deriving DecidableEq

/-- A frame joint.  Only the fields read by the embedded solver parts
(`support`, `storyIndex`, coordinates) are kept; roller direction,
spring stiffnesses, settlements and labels are not read by them. -/
structure FrameNodeData where
  id : String
  x : ℚ
  y : ℚ
  support : Option FrameSupportType := none
  storyIndex : Option ℤ := none
deriving DecidableEq

structure FrameMemberData where
  id : String
  nodeStartId : String
  nodeEndId : String
  eiMode : EIMode
  ei : Option ℚ := none
  iMultiplier : Option ℚ := none
  modE : Option ℚ := none
  inertiaI : Option ℚ := none
  memA : Option ℚ := none
  eUnit : Option EUnitKind := none
  iUnit : Option IUnitKind := none
  aUnit : Option AUnitKind := none
  releaseStart : Option Bool := none
  releaseEnd : Option Bool := none
deriving DecidableEq

inductive FrameLoad
  | joint (id nodeId : String) (fx fy moment : Option ℚ)
  | memberPoint (id memberId : String) (magnitude position : ℚ)
  | memberUdl (id memberId : String) (magnitude startPosition endPosition : ℚ)
  | memberVdl (id memberId : String) (w1 w2 startPosition endPosition : ℚ)
  | memberMoment (id memberId : String) (magnitude position : ℚ)
deriving DecidableEq

structure FrameData where
  nodes : List FrameNodeData
  members : List FrameMemberData
  loads : List FrameLoad
  isSway : Bool
  defaultE : Option ℚ := none
  defaultEUnit : Option EUnitKind := none
  defaultI : Option ℚ := none
  defaultIUnit : Option IUnitKind := none
  defaultA : Option ℚ := none
  defaultAUnit : Option AUnitKind := none
  defaultEI : Option ℚ := none
deriving DecidableEq

/-- Per-node DOF indices of the frame solver (`null` = restrained). -/
structure DOFMapping where
  nodeId : String
  dxDOF : Option ℕ := none
  dyDOF : Option ℕ := none
  rotDOF : Option ℕ := none
deriving DecidableEq

/-- Mutable state of `assignDOFs` while scanning the node list:
accumulated mappings, the per-story sway-DOF map (lazily filled),
the running DOF counter and the allocated sway DOFs. -/
structure DofState where
  maps : List DOFMapping
  story : List (ℤ × ℕ)
  idx : ℕ
  sway : List ℕ
deriving DecidableEq

/-- One node of `FrameAnalysisSolver.assignDOFs`.  A free node of a
sway frame with a defined story index `> 0` reuses (or lazily
allocates) the story's shared horizontal DOF; every other free node
gets its own `dx`.  Fixed: nothing; pinned: rotation; roller:
horizontal translation and rotation. -/
def assignStep (isSway : Bool) (st : DofState) (node : FrameNodeData) : DofState :=
  match node.support with
  | none =>
    let useShared : Bool :=
      isSway && match node.storyIndex with
                | some s => decide (0 < s)
                | none => false
    if useShared then
      match node.storyIndex with
      | some s =>
        match jsGet st.story s with
        | some d =>
          { st with
            maps := st.maps ++ [{ nodeId := node.id
                                  dxDOF := some d
                                  dyDOF := some st.idx
                                  rotDOF := some (st.idx + 1) }]
            idx := st.idx + 2 }
        | none =>
          { maps := st.maps ++ [{ nodeId := node.id
                                  dxDOF := some st.idx
                                  dyDOF := some (st.idx + 1)
                                  rotDOF := some (st.idx + 2) }]
            story := st.story ++ [(s, st.idx)]
            idx := st.idx + 3
            sway := st.sway ++ [st.idx] }
      | none =>
        -- unreachable: `useShared` requires a defined story index
        st
    else
      { st with
        maps := st.maps ++ [{ nodeId := node.id
                              dxDOF := some st.idx
                              dyDOF := some (st.idx + 1)
                              rotDOF := some (st.idx + 2) }]
        idx := st.idx + 3 }
  | some .fixed =>
    { st with maps := st.maps ++ [{ nodeId := node.id }] }
  | some .pinned =>
    { st with
      maps := st.maps ++ [{ nodeId := node.id, rotDOF := some st.idx }]
      idx := st.idx + 1 }
  | some .roller =>
    { st with
      maps := st.maps ++ [{ nodeId := node.id
                            dxDOF := some st.idx
                            rotDOF := some (st.idx + 1) }]
      idx := st.idx + 2 }

/-- Embedding of `FrameAnalysisSolver.assignDOFs`. -/
def assignDOFs (nodes : List FrameNodeData) (isSway : Bool) : DofState :=
  nodes.foldl (assignStep isSway) { maps := [], story := [], idx := 0, sway := [] }

/-- Member geometry oracle.  In the source the length comes from
`getMemberLength` (`Math.sqrt`) and the direction cosines from
`Math.cos`/`Math.sin` of `atan2`; these are irrational-valued and have
no computable rational embedding, so the solver parts that consume
them are parametrised by the geometry.  The propagation theorem holds
for every geometry, in particular the real one. -/
structure FrameGeom where
  len : FrameMemberData → ℚ
  cosA : FrameMemberData → ℚ
  sinA : FrameMemberData → ℚ

/-- Embedding of `getMemberEI`. -/
def getMemberEI (member : FrameMemberData) (defaultEI : ℚ) (defaultE : Option ℚ)
    (defaultEUnit : Option EUnitKind) (defaultI : Option ℚ)
    (defaultIUnit : Option IUnitKind) : ℚ :=
  if member.eiMode = .direct ∧ member.ei.isSome then member.ei.getD 0
  else if member.eiMode = .separate then
    calculateEI (member.modE.getD (defaultE.getD 200))
      (member.eUnit.getD (defaultEUnit.getD .gpa))
      (member.inertiaI.getD (defaultI.getD (1 / 10 ^ 4)))
      (member.iUnit.getD (defaultIUnit.getD .m4))
  else defaultEI * (member.iMultiplier.getD 1)

/-- Embedding of `getMemberEA`.  In the fallback the source passes
`defaultAUnit` (an area unit) as the I-unit default through an
`as any` cast; `convertIToM4` maps that unknown unit through its
default branch, the identity — the same conversion as `"m4"` — so the
fallback equals `getMemberEI` with no I defaults, times 1000. -/
def getMemberEA (member : FrameMemberData) (defaultEI : ℚ) (defaultE : Option ℚ)
    (defaultEUnit : Option EUnitKind) (defaultA : Option ℚ)
    (defaultAUnit : Option AUnitKind) : ℚ :=
  if member.eiMode = .separate ∧ member.memA.isSome then
    convertEToKNm2 (member.modE.getD (defaultE.getD 200))
        (member.eUnit.getD (defaultEUnit.getD .gpa)) *
      convertAToM2 (member.memA.getD (defaultA.getD (1 / 100)))
        (member.aUnit.getD (defaultAUnit.getD .m2))
  else getMemberEI member defaultEI defaultE defaultEUnit none none * 1000

/-- Fixed-end force vector of a frame member, in member-local
coordinates (`src/lib/solver/frame/fem.ts`). -/
structure FrameFEMResult where
  femStart : ℚ
  femEnd : ℚ
  fixedShearStart : ℚ
  fixedShearEnd : ℚ
  fixedAxialStart : ℚ
  fixedAxialEnd : ℚ
deriving DecidableEq

def FrameLoad.memberIdOf : FrameLoad → Option String
  | .joint _ _ _ _ _ => none
  | .memberPoint _ m _ _ => some m
  | .memberUdl _ m _ _ _ => some m
  | .memberVdl _ m _ _ _ _ => some m
  | .memberMoment _ m _ _ => some m

/-- One load of `calculateMemberFEM`: normalized positions are scaled
by the member length, the FEM library is reused, and simply-supported
fixed-end shears are accumulated (axial terms stay zero). -/
def memberLoadFEMStep (L : ℚ) (acc : FrameFEMResult) (load : FrameLoad) :
    Except SolveError FrameFEMResult :=
  match load with
  | .memberPoint _ _ m pos =>
    let a := pos * L
    let b := L - a
    (calculatePointLoadFEM m L a).map (fun fem =>
      { acc with
        femStart := acc.femStart + fem.1
        femEnd := acc.femEnd + fem.2
        fixedShearStart := acc.fixedShearStart + m * b / L
        fixedShearEnd := acc.fixedShearEnd + m * a / L })
  | .memberUdl _ _ m s e =>
    let sp := s * L
    let ep := e * L
    (calculateUDLFEM m L sp ep).map (fun fem =>
      let loadLength := ep - sp
      let loadCenter := (sp + ep) / 2
      let totalLoad := m * loadLength
      { acc with
        femStart := acc.femStart + fem.1
        femEnd := acc.femEnd + fem.2
        fixedShearStart := acc.fixedShearStart + totalLoad * (L - loadCenter) / L
        fixedShearEnd := acc.fixedShearEnd + totalLoad * loadCenter / L })
  | .memberVdl _ _ w1 w2 s e =>
    let sp := s * L
    let ep := e * L
    (calculateVDLFEM w1 w2 L sp ep).map (fun fem =>
      let loadLength := ep - sp
      let avgIntensity := (w1 + w2) / 2
      let totalLoad := avgIntensity * loadLength
      -- the source guards the centroid denominator with `|| 1`
      let den := if w1 + w2 = 0 then (1 : ℚ) else w1 + w2
      let centroid := sp + loadLength * (w1 + 2 * w2) / (3 * den)
      { acc with
        femStart := acc.femStart + fem.1
        femEnd := acc.femEnd + fem.2
        fixedShearStart := acc.fixedShearStart + totalLoad * (L - centroid) / L
        fixedShearEnd := acc.fixedShearEnd + totalLoad * centroid / L })
  | .memberMoment _ _ m pos =>
    let a := pos * L
    (calculateMomentFEM m L a).map (fun fem =>
      { acc with
        femStart := acc.femStart + fem.1
        femEnd := acc.femEnd + fem.2 })
  | .joint _ _ _ _ _ => .ok acc

/-- Embedding of `calculateMemberFEM`. -/
def calculateMemberFEM (geom : FrameGeom) (member : FrameMemberData)
    (loads : List FrameLoad) : Except SolveError FrameFEMResult :=
  let L := geom.len member
  (loads.filter (fun l => l.memberIdOf = some member.id)).foldlM
    (memberLoadFEMStep L)
    { femStart := 0, femEnd := 0, fixedShearStart := 0, fixedShearEnd := 0
      fixedAxialStart := 0, fixedAxialEnd := 0 }

/-- Embedding of `calculateAllFEM` of the frame solver. -/
def femAllFrame (geom : FrameGeom) (frame : FrameData) :
    Except SolveError (List (String × FrameFEMResult)) :=
  frame.members.mapM
    (fun m => (calculateMemberFEM geom m frame.loads).map (fun f => (m.id, f)))

/-- Embedding of `transposeMatrix` (totalised; every use in the
embedded paths is on rectangular 6×6 matrices). -/
def transposeMatrix (m : List (List ℚ)) : List (List ℚ) :=
  if m.isEmpty then []
  else (List.range (m.headD []).length).map (fun j => m.map (fun row => row.getD j 0))

/-- Embedding of `multiplyMatrices` (totalised; the dimension-mismatch
throw of the source is unreachable on the 6×6 products built here). -/
def multiplyMatrices (a b : List (List ℚ)) : List (List ℚ) :=
  a.map (fun row =>
    (List.range (b.headD []).length).map (fun j =>
      ((List.range (a.headD []).length).map
        (fun k => getQ row k * getQ (getRow b k) j)).sum))

/-- Embedding of `multiplyMatrixVector` (totalised). -/
def multiplyMatrixVector (m : List (List ℚ)) (v : List ℚ) : List ℚ :=
  m.map (fun row => (row.enum.map (fun p => p.2 * v.getD p.1 0)).sum)

/-- Embedding of `buildLocalStiffnessMatrix`: the 6×6 (axial, shear,
moment)² prismatic element, statically condensed when a start/end
moment release is set (both released → truss member).  The source
fills a zero matrix entry by entry; the equivalent full literals are
written here. -/
def buildLocalStiffnessMatrix (geom : FrameGeom) (frame : FrameData)
    (member : FrameMemberData) : List (List ℚ) :=
  let L := geom.len member
  let EI := getMemberEI member (frame.defaultEI.getD 50000) frame.defaultE
    frame.defaultEUnit frame.defaultI frame.defaultIUnit
  let EA := getMemberEA member (frame.defaultEI.getD 50000) frame.defaultE
    frame.defaultEUnit frame.defaultA frame.defaultAUnit
  let L2 := L * L
  let L3 := L2 * L
  let hasStartHinge := member.releaseStart = some true
  let hasEndHinge := member.releaseEnd = some true
  if hasStartHinge ∧ hasEndHinge then
    [ [EA / L, 0, 0, -(EA / L), 0, 0],
      [0, 0, 0, 0, 0, 0],
      [0, 0, 0, 0, 0, 0],
      [-(EA / L), 0, 0, EA / L, 0, 0],
      [0, 0, 0, 0, 0, 0],
      [0, 0, 0, 0, 0, 0] ]
  else if hasStartHinge then
    [ [EA / L, 0, 0, -(EA / L), 0, 0],
      [0, 3 * EI / L3, 0, 0, -(3 * EI / L3), 3 * EI / L2],
      [0, 0, 0, 0, 0, 0],
      [-(EA / L), 0, 0, EA / L, 0, 0],
      [0, -(3 * EI / L3), 0, 0, 3 * EI / L3, -(3 * EI / L2)],
      [0, 3 * EI / L2, 0, 0, -(3 * EI / L2), 3 * EI / L] ]
  else if hasEndHinge then
    [ [EA / L, 0, 0, -(EA / L), 0, 0],
      [0, 3 * EI / L3, 3 * EI / L2, 0, -(3 * EI / L3), 0],
      [0, 3 * EI / L2, 3 * EI / L, 0, -(3 * EI / L2), 0],
      [-(EA / L), 0, 0, EA / L, 0, 0],
      [0, -(3 * EI / L3), -(3 * EI / L2), 0, 3 * EI / L3, 0],
      [0, 0, 0, 0, 0, 0] ]
  else
    [ [EA / L, 0, 0, -(EA / L), 0, 0],
      [0, 12 * EI / L3, 6 * EI / L2, 0, -(12 * EI / L3), 6 * EI / L2],
      [0, 6 * EI / L2, 4 * EI / L, 0, -(6 * EI / L2), 2 * EI / L],
      [-(EA / L), 0, 0, EA / L, 0, 0],
      [0, -(12 * EI / L3), -(6 * EI / L2), 0, 12 * EI / L3, -(6 * EI / L2)],
      [0, 6 * EI / L2, 2 * EI / L, 0, -(6 * EI / L2), 4 * EI / L] ]

/-- Embedding of `buildTransformationMatrix` (block-diagonal rotation
by the member's chord angle, direction cosines from the geometry
oracle). -/
def buildTransformationMatrix (geom : FrameGeom) (member : FrameMemberData) :
    List (List ℚ) :=
  let c := geom.cosA member
  let s := geom.sinA member
  [ [c, s, 0, 0, 0, 0],
    [-s, c, 0, 0, 0, 0],
    [0, 0, 1, 0, 0, 0],
    [0, 0, 0, c, s, 0],
    [0, 0, 0, -s, c, 0],
    [0, 0, 0, 0, 0, 1] ]

/-- `getDOFMapping`: first mapping with the node id (`Array.find`). -/
def getDOFMapping (maps : List DOFMapping) (nodeId : String) : Option DOFMapping :=
  maps.find? (fun m => m.nodeId = nodeId)

/-- The 6-entry global-DOF list of a member. -/
def dofArray (startM endM : DOFMapping) : List (Option ℕ) :=
  [startM.dxDOF, startM.dyDOF, startM.rotDOF, endM.dxDOF, endM.dyDOF, endM.rotDOF]

/-- Scatter-add a member's 6×6 global-coordinate stiffness block into
the global matrix, skipping restrained (null) DOFs. -/
def scatterAddMatrix (K : List (List ℚ)) (g : List (Option ℕ))
    (kGlobal : List (List ℚ)) : List (List ℚ) :=
  (List.range 6).foldl (fun K1 i =>
    match g.getD i none with
    | none => K1
    | some gi =>
      (List.range 6).foldl (fun K2 j =>
        match g.getD j none with
        | none => K2
        | some gj => matAdd K2 gi gj (getQ (getRow kGlobal i) j)) K1) K

/-- Embedding of `buildGlobalStiffnessMatrix`. -/
def buildGlobalStiffnessMatrix (geom : FrameGeom) (frame : FrameData)
    (maps : List DOFMapping) (totalDOFs : ℕ) : List (List ℚ) :=
  frame.members.foldl (fun K member =>
    let kLocal := buildLocalStiffnessMatrix geom frame member
    let T := buildTransformationMatrix geom member
    let TT := transposeMatrix T
    let kGlobal := multiplyMatrices (multiplyMatrices TT kLocal) T
    match getDOFMapping maps member.nodeStartId,
          getDOFMapping maps member.nodeEndId with
    | some sm, some em => scatterAddMatrix K (dofArray sm em) kGlobal
    | _, _ => K)
    (createZeroMatrix totalDOFs totalDOFs)

/-- Scatter-add a member's global fixed-end force vector into the
global load vector. -/
def scatterAddVector (F : List ℚ) (g : List (Option ℕ)) (fGlobal : List ℚ) :
    List ℚ :=
  (List.range 6).foldl (fun F1 i =>
    match g.getD i none with
    | none => F1
    | some gi => vecAdd F1 gi (fGlobal.getD i 0)) F

/-- Embedding of `buildGlobalLoadVector`: joint loads at mapped DOFs,
then the transformed negated member fixed-end force vectors. -/
def buildGlobalLoadVector (geom : FrameGeom) (frame : FrameData)
    (fems : List (String × FrameFEMResult)) (maps : List DOFMapping)
    (totalDOFs : ℕ) : List ℚ :=
  let F0 := frame.loads.foldl (fun F load =>
    match load with
    | .joint _ nodeId fx fy moment =>
      match getDOFMapping maps nodeId with
      | none => F
      | some mapping =>
        let F1 := match fx, mapping.dxDOF with
          | some v, some i => vecAdd F i v
          | _, _ => F
        let F2 := match fy, mapping.dyDOF with
          | some v, some i => vecAdd F1 i v
          | _, _ => F1
        match moment, mapping.rotDOF with
        | some v, some i => vecAdd F2 i v
        | _, _ => F2
    | _ => F) (createZeroVector totalDOFs)
  frame.members.foldl (fun F member =>
    match jsGet fems member.id with
    | none => F
    | some fem =>
      let T := buildTransformationMatrix geom member
      let TT := transposeMatrix T
      let fLocal := [-fem.fixedAxialStart, -fem.fixedShearStart, -fem.femStart,
        -fem.fixedAxialEnd, -fem.fixedShearEnd, -fem.femEnd]
      let fGlobal := multiplyMatrixVector TT fLocal
      match getDOFMapping maps member.nodeStartId,
            getDOFMapping maps member.nodeEndId with
      | some sm, some em => scatterAddVector F (dofArray sm em) fGlobal
      | _, _ => F) F0

namespace FrameAnalysisSolver

/-- Steps 1–5 of `FrameAnalysisSolver.solve`: DOF assignment, member
FEMs, global stiffness and load assembly, and the displacement solve.
The remaining steps of `solve` post-process a successful displacement
solve (forces, reactions, diagrams, log) and contain no error
handling, so a failure of the linear solve is the failure of
`solve`. -/
def solveDisplacements (geom : FrameGeom) (frame : FrameData) :
    Except SolveError (List ℚ) :=
  let st := assignDOFs frame.nodes frame.isSway
  (femAllFrame geom frame).bind (fun fems =>
    let K := buildGlobalStiffnessMatrix geom frame st.maps st.idx
    let F := buildGlobalLoadVector geom frame fems st.maps st.idx
    if 0 < st.idx then solveLinearSystem K F else .ok [])

end FrameAnalysisSolver

/-! ## Store-level model of `solveLinearSystem` (frame property)

To state that `solveLinearSystem` never mutates its arguments, the JS
heap is made explicit: a store of array cells addressed by index.  The
argument matrix is a list of row addresses, the argument vector an
address; `[...row, b[i]]` allocates fresh cells at the end of the
store and every elimination write targets those fresh cells. -/

abbrev Store := List (List ℚ)

def readCell (st : Store) (a : ℕ) : List ℚ := st.getD a []

def writeCell (st : Store) (a : ℕ) (v : List ℚ) : Store := st.set a v

/-- Pivot search reading the augmented rows through their addresses. -/
def findPivotRef (st : Store) (addrs : List ℕ) (col n : ℕ) : ℕ × ℚ :=
  (List.range' (col + 1) (n - (col + 1))).foldl
    (fun acc row =>
      let v := absQ (getQ (readCell st (addrs.getD row 0)) col)
      if v > acc.2 then (row, v) else acc)
    (col, absQ (getQ (readCell st (addrs.getD col 0)) col))

/-- Elimination below the pivot, writing the updated rows back into
the store at their (fresh) addresses. -/
def elimBelowRef (st : Store) (addrs : List ℕ) (col n : ℕ) : Store :=
  (List.range' (col + 1) (n - (col + 1))).foldl
    (fun s row =>
      writeCell s (addrs.getD row 0)
        (elimRow (readCell s (addrs.getD col 0)) col n
          (readCell s (addrs.getD row 0))))
    st

/-- One elimination column over the store.  The row swap of the source
permutes the (fresh, function-local) outer `augmented` array, so it is
threaded functionally as the address list. -/
def elimStepRef (n col : ℕ) (st : Store) (addrs : List ℕ) :
    Store × Except SolveError (List ℕ) :=
  let p := findPivotRef st addrs col n
  let addrs1 :=
    if p.1 ≠ col then (addrs.set col (addrs.getD p.1 0)).set p.1 (addrs.getD col 0)
    else addrs
  if absQ (getQ (readCell st (addrs1.getD col 0)) col) < eps12 then
    (st, .error (.singularMatrix col))
  else (elimBelowRef st addrs1 col n, .ok addrs1)

/-- Forward elimination over the store. -/
def forwardElimRef (n : ℕ) (col : ℕ) (st : Store) (addrs : List ℕ) :
    Store × Except SolveError (List ℕ) :=
  if _h : col < n then
    match elimStepRef n col st addrs with
    | (st1, .error e) => (st1, .error e)
    | (st1, .ok addrs1) => forwardElimRef n (col + 1) st1 addrs1
  else (st, .ok addrs)
termination_by n - col

/-- Back substitution reading rows through their addresses. -/
def backSubGoRef (st : Store) (addrs : List ℕ) (n : ℕ) : ℕ → List ℚ → List ℚ
  | 0, xs => xs
  | k + 1, xs =>
    let r := readCell st (addrs.getD k 0)
    let s := getQ r n -
      ((List.range' (k + 1) (n - (k + 1))).map
          (fun j => getQ r j * xs.getD (j - (k + 1)) 0)).sum
    backSubGoRef st addrs n k (s / getQ r k :: xs)

/-- Store-level `solveLinearSystem`: same algorithm as the pure
embedding, with the heap explicit.  Returns the final store together
with the result. -/
def solveLinearSystemRef (st0 : Store) (argA : List ℕ) (argB : ℕ) :
    Store × Except SolveError (List ℚ) :=
  let n := argA.length
  if n = 0 then (st0, .ok [])
  else if (readCell st0 (argA.headD 0)).length ≠ n then
    (st0, .error .matrixNotSquare)
  else if (readCell st0 argB).length ≠ n then
    (st0, .error .vectorLengthMismatch)
  else
    let base := st0.length
    let newRows := argA.enum.map
      (fun p => readCell st0 p.2 ++ [getQ (readCell st0 argB) p.1])
    let st1 := st0 ++ newRows
    match forwardElimRef n 0 st1 (List.range' base n) with
    | (st2, .error e) => (st2, .error e)
    | (st2, .ok addrs) => (st2, .ok (backSubGoRef st2 addrs n n []))

/-! ## Concrete inputs used by witnesses and counterexamples -/

/-- A fixed–fixed single-span beam with a midspan point load. -/
def beamC8 : ContinuousBeamData :=
  { nodes := [{ id := "m0", position := 0, supportType := .fixed },
              { id := "m1", position := 4, supportType := .fixed }]
    spans := [{ id := "fs", nodeStartId := "m0", nodeEndId := "m1"
                length := 4, eiMode := .multiplier }]
    loads := [.point "p1" "fs" 10 2] }

def nodeM0C8 : NodeData := { id := "m0", position := 0, supportType := .fixed }

def spanC8 : SpanData :=
  { id := "fs", nodeStartId := "m0", nodeEndId := "m1"
    length := 4, eiMode := .multiplier }

def smC8 : SpanEndMoments := { spanId := "fs", mStart := -5, mEnd := 5 }

/-- The result `solve` returns on `beamC8` (checked by evaluation). -/
def resC8 : BeamResult :=
  { rotations := [("m0", 0), ("m1", 0)]
    endMoments := [smC8]
    reactions := [{ nodeId := "m0", position := 0, vertical := 15 / 2
                    moment := some 5 },
                  { nodeId := "m1", position := 4, vertical := 5 / 2
                    moment := some 5 }] }

/-- A cantilever: fixed support at one end, a FREE node at the tip,
loaded at the tip.  It passes validation (restraint count 2). -/
def beamC1 : ContinuousBeamData :=
  { nodes := [{ id := "c0", position := 0, supportType := .fixed },
              { id := "c1", position := 5, supportType := .free }]
    spans := [{ id := "s1", nodeStartId := "c0", nodeEndId := "c1"
                length := 5, eiMode := .multiplier }]
    loads := [.point "pl" "s1" 10 5] }

/-- The result `solve` returns on `beamC1` (checked by evaluation). -/
def resC1 : BeamResult :=
  { rotations := [("c0", 0), ("c1", 0)]
    endMoments := [{ spanId := "s1", mStart := 0, mEnd := 0 }]
    reactions := [{ nodeId := "c0", position := 0, vertical := 0
                    moment := some 0 }] }

/-- A fixed–pinned single-span beam with a midspan point load. -/
def beamC1W : ContinuousBeamData :=
  { nodes := [{ id := "f0", position := 0, supportType := .fixed },
              { id := "f1", position := 4, supportType := .pinned }]
    spans := [{ id := "qs", nodeStartId := "f0", nodeEndId := "f1"
                length := 4, eiMode := .multiplier }]
    loads := [.point "pw" "qs" 10 2] }

/-- The result `solve` returns on `beamC1W` (checked by evaluation). -/
def resC1W : BeamResult :=
  { rotations := [("f0", 0), ("f1", -1 / 10000)]
    endMoments := [{ spanId := "qs", mStart := -15 / 2, mEnd := 0 }]
    reactions := [{ nodeId := "f0", position := 0, vertical := 55 / 8
                    moment := some (15 / 2) },
                  { nodeId := "f1", position := 4, vertical := 25 / 8
                    moment := none }] }

/-! ## Basic lemmas -/

theorem absQ_eq_abs (q : ℚ) : absQ q = |q| := by
  unfold absQ
  split
  · exact (abs_of_neg (by assumption)).symm
  · exact (abs_of_nonneg (by linarith [not_lt.mp (by assumption)])).symm

theorem absQ_of_nonneg {q : ℚ} (h : 0 ≤ q) : absQ q = q := by
  unfold absQ
  rw [if_neg (not_lt.mpr h)]

theorem eps10_pos : (0 : ℚ) < eps10 := by norm_num [eps10]

theorem eps12_pos : (0 : ℚ) < eps12 := by norm_num [eps12]

/-- Clamping an in-range position is the identity. -/
theorem clamp_of_mem {L a : ℚ} (h0 : 0 ≤ a) (haL : a ≤ L) :
    max 0 (min L a) = a := by
  rw [min_eq_right haL, max_eq_right h0]

/-- Clamping into `[0, L]` is idempotent. -/
theorem clamp_idem (L x : ℚ) :
    max 0 (min L (max 0 (min L x))) = max 0 (min L x) := by
  rcases le_total (min L x) 0 with h | h
  · rcases le_total L 0 with hL | hL <;>
      simp [max_eq_left h, min_eq_left hL, max_eq_left hL, min_eq_right hL,
        max_eq_right (le_refl (0 : ℚ))]
  · have hm : min L x ≤ L := min_le_left L x
    rw [max_eq_right h, min_eq_right hm, max_eq_right h]

/-! ## C2: point-load fixed-end moments -/

theorem pointLoadFEMval_eq (P L a : ℚ) (h0 : 0 ≤ a) (haL : a ≤ L) :
    pointLoadFEMval P L a =
      (-(P * a * (L - a) * (L - a)) / (L * L), P * a * a * (L - a) / (L * L)) := by
  simp only [pointLoadFEMval, clamp_of_mem h0 haL]

/-- C2: for `L > 0` and `0 ≤ a ≤ L`, `calculatePointLoadFEM` returns
`femStart = −P·a·b²/L²` and `femEnd = +P·a²·b/L²` with `b = L − a`;
at midspan it returns exactly `(−P·L/8, +P·L/8)`, and the
simply-supported end reactions computed by `calculateLoadReaction` for
that midspan load are `P/2` at each end. -/
theorem C2_point_load_fem (P L a : ℚ) (hL : 0 < L) (h0 : 0 ≤ a) (haL : a ≤ L) :
    calculatePointLoadFEM P L a =
      .ok (-(P * a * (L - a) * (L - a)) / (L * L), P * a * a * (L - a) / (L * L)) ∧
    calculatePointLoadFEM P L (L / 2) = .ok (-(P * L) / 8, P * L / 8) ∧
    ∀ span : SpanData, span.length = L →
      calculateLoadReaction [.point "p" span.id P (L / 2)] span true = P / 2 ∧
      calculateLoadReaction [.point "p" span.id P (L / 2)] span false = P / 2 := by
  have hL' : ¬L ≤ 0 := not_le.mpr hL
  have hne : L ≠ 0 := ne_of_gt hL
  have hmid0 : (0 : ℚ) ≤ L / 2 := by linarith
  have hmidL : L / 2 ≤ L := by linarith
  refine ⟨?_, ?_, ?_⟩
  · simp only [calculatePointLoadFEM, if_neg hL', pointLoadFEMval_eq P L a h0 haL]
  · simp only [calculatePointLoadFEM, if_neg hL',
      pointLoadFEMval_eq P L (L / 2) hmid0 hmidL]
    have h1 : -(P * (L / 2) * (L - L / 2) * (L - L / 2)) / (L * L) = -(P * L) / 8 := by
      field_simp
      ring
    have h2 : P * (L / 2) * (L / 2) * (L - L / 2) / (L * L) = P * L / 8 := by
      field_simp
      ring
    rw [h1, h2]
  · intro span hspan
    constructor <;>
      · simp [calculateLoadReaction, BeamLoad.spanId, hspan]
        field_simp
        ring

/-- Witness: `C2_point_load_fem` applied at `P = 10`, `L = 4`,
`a = 1`. -/
theorem C2_point_load_fem_witness :
    calculatePointLoadFEM 10 4 1 =
      .ok (-(10 * 1 * (4 - 1) * (4 - 1)) / (4 * 4), 10 * 1 * 1 * (4 - 1) / (4 * 4)) ∧
    calculatePointLoadFEM 10 4 (4 / 2) = .ok (-(10 * 4) / 8, 10 * 4 / 8) ∧
    ∀ span : SpanData, span.length = 4 →
      calculateLoadReaction [.point "p" span.id 10 (4 / 2)] span true = 10 / 2 ∧
      calculateLoadReaction [.point "p" span.id 10 (4 / 2)] span false = 10 / 2 :=
  C2_point_load_fem 10 4 1 (by norm_num) (by norm_num) (by norm_num)

/-! ## C6: full-span VDL with equal intensities vs full-span UDL -/

theorem udlFEMval_tiny (w L : ℚ) (hL : 0 < L) (hsm : L < eps10) :
    udlFEMval w L 0 L = (0, 0) := by
  have h1 : min L (0 : ℚ) = 0 := min_eq_right hL.le
  have h3 : min L L = L := min_self L
  simp only [udlFEMval, h1, h3, max_self, max_eq_right hL.le,
    min_eq_left hL.le, sub_zero, absQ_of_nonneg hL.le]
  rw [if_pos hsm]

theorem udlFEMval_full (w L : ℚ) (hL : 0 < L) (hbig : eps10 ≤ L) :
    udlFEMval w L 0 L = (-(w * (L * L)) / 12, w * (L * L) / 12) := by
  have h1 : min L (0 : ℚ) = 0 := min_eq_right hL.le
  have h3 : min L L = L := min_self L
  simp only [udlFEMval, h1, h3, max_self, max_eq_right hL.le,
    min_eq_left hL.le, sub_zero, sub_self, absQ_of_nonneg hL.le,
    absQ_of_nonneg (le_refl (0 : ℚ))]
  rw [if_neg (not_lt.mpr hbig), if_pos ⟨eps10_pos, eps10_pos⟩]

theorem vdlFEMval_tiny (w1 w2 L : ℚ) (hL : 0 < L) (hsm : L < eps10) :
    vdlFEMval w1 w2 L 0 L = (0, 0) := by
  have h1 : min L (0 : ℚ) = 0 := min_eq_right hL.le
  have h3 : min L L = L := min_self L
  simp only [vdlFEMval, h1, h3, max_self, max_eq_right hL.le, sub_zero,
    absQ_of_nonneg hL.le]
  rw [if_pos hsm]

theorem vdlFEMval_full_equal (w L : ℚ) (hL : 0 < L) (hbig : eps10 ≤ L) :
    vdlFEMval w w L 0 L = (-(w * (L * L)) / 12, w * (L * L) / 12) := by
  have h1 : min L (0 : ℚ) = 0 := min_eq_right hL.le
  have h3 : min L L = L := min_self L
  simp only [vdlFEMval, h1, h3, max_self, max_eq_right hL.le, sub_zero,
    sub_self, absQ_of_nonneg hL.le, absQ_of_nonneg (le_refl (0 : ℚ)),
    min_self, lt_irrefl]
  rw [if_neg (not_lt.mpr hbig), if_pos ⟨eps10_pos, eps10_pos⟩]
  simp

/-- C6 (amended): for every intensity `w` and span `L > 0` the
full-span `VDL(w, w)` fixed-end moments equal the full-span `UDL(w)`
fixed-end moments exactly (so in particular within the stated 1e-2
tolerance); when additionally `L ≥ 1e-10` — so that the degenerate
zero-length cutoff of both functions does not fire — both equal
`(−w·L²/12, +w·L²/12)`. -/
theorem C6_vdl_udl_amended (w L : ℚ) (hL : 0 < L) :
    calculateVDLFEM w w L 0 L = calculateUDLFEM w L 0 L ∧
    (eps10 ≤ L →
      calculateVDLFEM w w L 0 L = .ok (-(w * (L * L)) / 12, w * (L * L) / 12) ∧
      calculateUDLFEM w L 0 L = .ok (-(w * (L * L)) / 12, w * (L * L) / 12)) := by
  have hL' : ¬L ≤ 0 := not_le.mpr hL
  simp only [calculateVDLFEM, calculateUDLFEM, if_neg hL']
  by_cases hsm : L < eps10
  · rw [udlFEMval_tiny w L hL hsm, vdlFEMval_tiny w w L hL hsm]
    exact ⟨rfl, fun hbig => absurd hsm (not_lt.mpr hbig)⟩
  · have hbig : eps10 ≤ L := not_lt.mp hsm
    rw [udlFEMval_full w L hL hbig, vdlFEMval_full_equal w L hL hbig]
    exact ⟨rfl, fun _ => ⟨rfl, rfl⟩⟩

/-- Witness: `C6_vdl_udl_amended` at `w = 7`, `L = 3`. -/
theorem C6_vdl_udl_amended_witness :
    calculateVDLFEM 7 7 3 0 3 = calculateUDLFEM 7 3 0 3 ∧
    (eps10 ≤ 3 →
      calculateVDLFEM 7 7 3 0 3 = .ok (-(7 * (3 * 3)) / 12, 7 * (3 * 3) / 12) ∧
      calculateUDLFEM 7 3 0 3 = .ok (-(7 * (3 * 3)) / 12, 7 * (3 * 3) / 12)) :=
  C6_vdl_udl_amended 7 3 (by norm_num)

/-- C6 counterexample to the claim as stated: at `L = 1e-11 > 0`,
`w = 12`, both functions return `(0, 0)` through the degenerate
zero-length cutoff, which differs from the claimed `−w·L²/12`. -/
theorem C6_counterexample :
    calculateVDLFEM 12 12 (1 / 10 ^ 11) 0 (1 / 10 ^ 11) = .ok (0, 0) ∧
    calculateUDLFEM 12 (1 / 10 ^ 11) 0 (1 / 10 ^ 11) = .ok (0, 0) ∧
    -(12 * ((1 / 10 ^ 11 : ℚ) * (1 / 10 ^ 11))) / 12 ≠ 0 := by
  refine ⟨?_, ?_, by norm_num⟩ <;> with_unfolding_all decide

/-! ## C5: partial-UDL midpoint integration -/

theorem absQ_of_nonpos {q : ℚ} (h : q ≤ 0) : absQ q = -q := by
  unfold absQ
  split
  · rfl
  · have h0 : q = 0 := le_antisymm h (not_lt.mp (by assumption))
    rw [h0, neg_zero]

/-- The partial-UDL branch of `calculateUDLFEM`: when the (in-range)
load region is longer than the degenerate cutoff, shorter than 95% of
the span, and not within `1e-10` of full span, the result is the
20-segment midpoint integration. -/
theorem udlFEM_partial_branch (w L s e : ℚ) (hL : 0 < L) (h0 : 0 ≤ s)
    (hse : s ≤ e) (heL : e ≤ L) (hgt : eps10 < e - s)
    (hlt : e - s < L * (95 / 100)) (hnf : ¬(s < eps10 ∧ L - e < eps10)) :
    calculateUDLFEM w L s e = .ok (udlMidpointSum w L s e) := by
  have hL' : ¬L ≤ 0 := not_le.mpr hL
  have hcs : max 0 (min L s) = s := clamp_of_mem h0 (le_trans hse heL)
  have hce : max 0 (min L e) = e := clamp_of_mem (le_trans h0 hse) heL
  have heL0 : e - L ≤ 0 := by linarith
  simp only [calculateUDLFEM, udlFEMval, if_neg hL', hcs, hce,
    min_eq_left hse, max_eq_right hse, absQ_of_nonneg (by linarith : (0:ℚ) ≤ e - s),
    absQ_of_nonneg h0, absQ_of_nonpos heL0, neg_sub]
  rw [if_neg (not_lt.mpr hgt.le), if_neg hnf, if_neg (not_le.mpr hlt)]

/-- C5 (amended): for a UDL whose clamped region `[s, e] ⊆ [0, L]`
has length above the `1e-10` cutoff and below the `0.95·L` near-full
shortcut (and is not within `1e-10` of full span), `calculateUDLFEM`
returns exactly the 20-segment midpoint integration of equivalent
point loads.  The claim as stated — midpoint integration for every
non-full-span region — fails on the `≥ 0.95·L` shortcut, see
`C5_shortcut_counterexample`. -/
theorem C5_partial_udl_midpoint (w L s e : ℚ) (hL : 0 < L) (h0 : 0 ≤ s)
    (hse : s ≤ e) (heL : e ≤ L) (hgt : eps10 < e - s)
    (hlt : e - s < L * (95 / 100)) (hnf : ¬(s < eps10 ∧ L - e < eps10)) :
    calculateUDLFEM w L s e = .ok (udlMidpointSum w L s e) :=
  udlFEM_partial_branch w L s e hL h0 hse heL hgt hlt hnf

/-- Witness: `C5_partial_udl_midpoint` at `w = 2`, `L = 10`,
region `[1, 4]`. -/
theorem C5_partial_udl_midpoint_witness :
    calculateUDLFEM 2 10 1 4 = .ok (udlMidpointSum 2 10 1 4) :=
  C5_partial_udl_midpoint 2 10 1 4 (by norm_num) (by norm_num) (by norm_num)
    (by norm_num) (by norm_num [eps10]) (by norm_num)
    (by norm_num [eps10])

set_option maxRecDepth 8000 in
/-- C5 counterexample to the claim as stated: the region `[0.2, 9.9]`
on a 10 m span does not cover the full span, yet `calculateUDLFEM`
takes the `≥ 0.95·L` shortcut and returns the closed-form `−w·L²/12`,
which differs from the 20-segment midpoint integration. -/
theorem C5_shortcut_counterexample :
    calculateUDLFEM 1 10 (1 / 5) (99 / 10) = .ok (-(100 : ℚ) / 12, 100 / 12) ∧
    (udlMidpointSum 1 10 (1 / 5) (99 / 10)).1 ≠ -(100 : ℚ) / 12 := by
  constructor <;> with_unfolding_all decide

/-! ## C7: out-of-range load positions -/

/-- The FEM library clamps a point-load position into `[0, L]` rather
than rejecting it: the result on any position equals the result on the
clamped position. -/
theorem calculatePointLoadFEM_clamps (P L pos : ℚ) :
    calculatePointLoadFEM P L pos =
      calculatePointLoadFEM P L (max 0 (min L pos)) := by
  unfold calculatePointLoadFEM pointLoadFEMval
  rw [clamp_idem]

/-- The FEM library clamps UDL boundaries into `[0, L]` rather than
rejecting them. -/
theorem calculateUDLFEM_clamps (w L s e : ℚ) :
    calculateUDLFEM w L s e =
      calculateUDLFEM w L (max 0 (min L s)) (max 0 (min L e)) := by
  unfold calculateUDLFEM udlFEMval
  rw [clamp_idem, clamp_idem]

/-- C7 (amended): an out-of-range point/moment position is flagged by
the editor-level `validateBeamEditor` (an error with the load's id on
the `loads` field is produced), but the FEM library itself never
rejects an out-of-range position: it silently clamps it into `[0, L]`
and computes the FEM of the clamped position. -/
theorem C7_out_of_range_amended :
    (∀ (state : BeamEditorState), ∀ load ∈ state.loads,
      (load.kind = .point ∨ load.kind = .moment) →
      (match load.position with
       | none => True
       | some p => p < 0 ∨ p > state.length) →
      (⟨"load-" ++ load.id, "loads"⟩ : BeamValidationError) ∈
        validateBeamEditor state) ∧
    (∀ P L pos, calculatePointLoadFEM P L pos =
      calculatePointLoadFEM P L (max 0 (min L pos))) ∧
    (∀ w L s e, calculateUDLFEM w L s e =
      calculateUDLFEM w L (max 0 (min L s)) (max 0 (min L e))) := by
  refine ⟨?_, calculatePointLoadFEM_clamps, calculateUDLFEM_clamps⟩
  intro state load hmem hkind hpos
  have herr : (⟨"load-" ++ load.id, "loads"⟩ : BeamValidationError) ∈
      editorLoadErrors state.length load := by
    apply List.mem_append_left
    apply List.mem_append_left
    rcases hkind with hk | hk <;>
      · rw [hk]
        cases hp : load.position with
        | none => simp [editorLoadErrors]
        | some p =>
          rw [hp] at hpos
          simp only [editorLoadErrors]
          rw [if_pos hpos]
          exact List.mem_singleton.mpr rfl
  unfold validateBeamEditor
  refine List.mem_append_right _ (List.mem_flatMap.mpr ⟨load, hmem, herr⟩)

/-- Witness: `C7_out_of_range_amended` applied to an editor state with
a point load at position 7 on a 5 m beam, and to the FEM library at
the out-of-range inputs `position = 7` on `L = 5` and region
`[-2, 3]` on `L = 5`. -/
theorem C7_out_of_range_amended_witness :
    ((⟨"load-" ++ "lp", "loads"⟩ : BeamValidationError) ∈
      validateBeamEditor
        { length := 5, ei := 1000
          supports := [{ id := "a", position := 0 }, { id := "b", position := 5 }]
          loads := [{ id := "lp", kind := .point, magnitude := 10,
                      position := some 7 }] }) ∧
    calculatePointLoadFEM 10 5 7 = calculatePointLoadFEM 10 5 (max 0 (min 5 7)) ∧
    calculateUDLFEM 10 5 (-2) 3 =
      calculateUDLFEM 10 5 (max 0 (min 5 (-2))) (max 0 (min 5 3)) :=
  ⟨C7_out_of_range_amended.1 _ _ (List.mem_singleton.mpr rfl) (Or.inl rfl)
      (by norm_num),
    C7_out_of_range_amended.2.1 10 5 7,
    C7_out_of_range_amended.2.2 10 5 (-2) 3⟩

set_option maxRecDepth 8000 in
/-- C7 counterexample to the claim as stated: the UDL region
`[-2, 3]` on a 5 m span is out of range, yet `calculateUDLFEM`
surfaces no error — it returns the (nonzero) FEM computed from the
silently clamped region `[0, 3]`, namely the 20-segment midpoint
integration of that clamped region. -/
theorem C7_counterexample :
    calculateUDLFEM 10 5 (-2) 3 = calculateUDLFEM 10 5 0 3 ∧
    calculateUDLFEM 10 5 0 3 = .ok (udlMidpointSum 10 5 0 3) ∧
    (udlMidpointSum 10 5 0 3).1 ≠ 0 := by
  refine ⟨?_, ?_, ?_⟩
  · have h := calculateUDLFEM_clamps 10 5 (-2) 3
    have h1 : max 0 (min (5:ℚ) (-2)) = 0 := by norm_num
    have h2 : max 0 (min (5:ℚ) 3) = 3 := by norm_num
    rw [h1, h2] at h
    exact h
  · exact udlFEM_partial_branch 10 5 0 3 (by norm_num) (by norm_num) (by norm_num)
      (by norm_num) (by norm_num [eps10]) (by norm_num) (by norm_num [eps10])
  · with_unfolding_all decide

/-! ## Error-shape lemmas for the solver pipeline -/

theorem exBind_ok {ε α β : Type} (a : α) (f : α → Except ε β) :
    Except.bind (.ok a) f = f a := rfl

theorem exBind_error {ε α β : Type} (e : ε) (f : α → Except ε β) :
    Except.bind (.error e) f = .error e := rfl

theorem exBindM_ok {ε α β : Type} (a : α) (f : α → Except ε β) :
    (Except.ok a : Except ε α) >>= f = f a := rfl

theorem exBindM_error {ε α β : Type} (e : ε) (f : α → Except ε β) :
    (Except.error e : Except ε α) >>= f = .error e := rfl

theorem exMap_ok {ε α β : Type} (f : α → β) (a : α) :
    Except.map f (Except.ok a : Except ε α) = .ok (f a) := rfl

theorem exMap_error {ε α β : Type} (f : α → β) (e : ε) :
    Except.map f (Except.error e : Except ε α) = .error e := rfl

theorem exPure {ε α : Type} (a : α) : (pure a : Except ε α) = .ok a := rfl

/-- A monadic map over `Except` fails only through one of its
elements. -/
theorem mapM_error_mem {α β : Type} {f : α → Except SolveError β}
    {e : SolveError} :
    ∀ {l : List α}, l.mapM f = .error e → ∃ x ∈ l, f x = .error e := by
  intro l
  induction l with
  | nil => intro h; rw [List.mapM_nil, exPure] at h; cases h
  | cons x xs ih =>
    intro h
    rw [List.mapM_cons] at h
    cases hx : f x with
    | error e1 =>
      rw [hx, exBindM_error] at h
      cases h
      exact ⟨x, List.mem_cons_self x xs, hx⟩
    | ok y =>
      rw [hx, exBindM_ok] at h
      cases hrest : xs.mapM f with
      | error e2 =>
        rw [hrest, exBindM_error] at h
        cases h
        obtain ⟨z, hz, hfz⟩ := ih hrest
        exact ⟨z, List.mem_cons_of_mem x hz, hfz⟩
      | ok ys =>
        rw [hrest, exBindM_ok, exPure] at h
        cases h

/-- A successful monadic map over `Except` succeeds on every
element. -/
theorem mapM_ok_mem {α β : Type} {f : α → Except SolveError β} :
    ∀ {l : List α} {ys : List β}, l.mapM f = .ok ys →
      ∀ x ∈ l, ∃ y, f x = .ok y := by
  intro l
  induction l with
  | nil => intro ys _ x hx; cases hx
  | cons t ts ih =>
    intro ys h x hx
    rw [List.mapM_cons] at h
    cases ht : f t with
    | error e1 => rw [ht, exBindM_error] at h; cases h
    | ok y =>
      rw [ht, exBindM_ok] at h
      cases hrest : ts.mapM f with
      | error e2 => rw [hrest, exBindM_error] at h; cases h
      | ok zs =>
        rcases List.mem_cons.mp hx with rfl | hx2
        · exact ⟨y, ht⟩
        · exact ih hrest x hx2

theorem loadFEM_error {L : ℚ} {l : BeamLoad} {e : SolveError}
    (h : loadFEM L l = .error e) : e = .spanLengthNotPositive := by
  cases l <;>
    simp only [loadFEM, calculatePointLoadFEM, calculateUDLFEM, calculateVDLFEM,
      calculateMomentFEM] at h <;>
    split at h <;> simp_all

theorem loadFEM_ok_pos {L : ℚ} {l : BeamLoad} {v : ℚ × ℚ}
    (h : loadFEM L l = .ok v) : 0 < L := by
  cases l <;>
    (simp only [loadFEM, calculatePointLoadFEM, calculateUDLFEM, calculateVDLFEM,
       calculateMomentFEM] at h
     split at h
     · exact Except.noConfusion h
     · next hgt => exact lt_of_not_le hgt)

theorem spanFEM_fold_error {L : ℚ} {e : SolveError} :
    ∀ (ls : List BeamLoad) (acc : ℚ × ℚ),
      ls.foldlM (fun acc l =>
          (loadFEM L l).map (fun f => (acc.1 + f.1, acc.2 + f.2))) acc =
        .error e →
      e = .spanLengthNotPositive := by
  intro ls
  induction ls with
  | nil => intro acc h; rw [List.foldlM_nil, exPure] at h; cases h
  | cons x xs ih =>
    intro acc h
    rw [List.foldlM_cons] at h
    cases hfx : loadFEM L x with
    | error e1 =>
      rw [hfx, exMap_error, exBindM_error] at h
      cases h
      exact loadFEM_error hfx
    | ok v =>
      rw [hfx, exMap_ok, exBindM_ok] at h
      exact ih _ h

theorem calculateSpanFEM_error {span : SpanData} {loads : List BeamLoad}
    {e : SolveError} (h : calculateSpanFEM span loads = .error e) :
    e = .spanLengthNotPositive :=
  spanFEM_fold_error _ _ h

theorem calculateSpanFEM_ok_length {span : SpanData} {loads : List BeamLoad}
    {f : ℚ × ℚ} (h : calculateSpanFEM span loads = .ok f)
    (hne : loads.filter (fun l => l.spanId = span.id) ≠ []) :
    0 < span.length := by
  unfold calculateSpanFEM at h
  cases hls : loads.filter (fun l => l.spanId = span.id) with
  | nil => exact absurd hls hne
  | cons x xs =>
    rw [hls, List.foldlM_cons] at h
    cases hfx : loadFEM span.length x with
    | error e1 =>
      rw [hfx, exMap_error, exBindM_error] at h
      exact Except.noConfusion h
    | ok v => exact loadFEM_ok_pos hfx

theorem femAll_error {beam : ContinuousBeamData} {e : SolveError}
    (h : femAll beam = .error e) : e = .spanLengthNotPositive := by
  obtain ⟨s, _, hs⟩ := mapM_error_mem h
  cases hsf : calculateSpanFEM s beam.loads with
  | error e1 =>
    rw [hsf, exMap_error] at hs
    cases hs
    exact calculateSpanFEM_error hsf
  | ok f => rw [hsf, exMap_ok] at hs; cases hs

theorem femAll_ok_mem {beam : ContinuousBeamData}
    {fems : List (String × (ℚ × ℚ))} (h : femAll beam = .ok fems) :
    ∀ s ∈ beam.spans, ∃ f, calculateSpanFEM s beam.loads = .ok f := by
  intro s hs
  obtain ⟨y, hy⟩ := mapM_ok_mem h s hs
  cases hsf : calculateSpanFEM s beam.loads with
  | error e1 => rw [hsf, exMap_error] at hy; cases hy
  | ok f => exact ⟨f, rfl⟩

theorem elimStep_error {n col : ℕ} {aug : List (List ℚ)} {e : SolveError}
    (h : elimStep n col aug = .error e) : e = .singularMatrix col := by
  simp only [elimStep] at h
  split at h <;> split at h <;> simp_all

theorem forwardElim_error {n : ℕ} {e : SolveError} :
    ∀ (k col : ℕ) (aug : List (List ℚ)), n - col = k →
      forwardElim n col aug = .error e → ∃ c, e = .singularMatrix c := by
  intro k
  induction k with
  | zero =>
    intro col aug hk h
    rw [forwardElim] at h
    rw [dif_neg (by omega)] at h
    cases h
  | succ k ih =>
    intro col aug hk h
    rw [forwardElim] at h
    rw [dif_pos (by omega)] at h
    cases hstep : elimStep n col aug with
    | error e1 =>
      rw [hstep, exBind_error] at h
      cases h
      exact ⟨col, elimStep_error hstep⟩
    | ok aug2 =>
      rw [hstep, exBind_ok] at h
      exact ih (col + 1) aug2 (by omega) h

theorem solveLinearSystem_error {A : List (List ℚ)} {b : List ℚ} {e : SolveError}
    (h : solveLinearSystem A b = .error e) :
    e = .matrixNotSquare ∨ e = .vectorLengthMismatch ∨
      ∃ c, e = .singularMatrix c := by
  simp only [solveLinearSystem] at h
  split at h
  · cases h
  · split at h
    · cases h; exact Or.inl rfl
    · split at h
      · cases h; exact Or.inr (Or.inl rfl)
      · cases hfe : forwardElim A.length 0
            (List.zipWith (fun row bi => row ++ [bi]) A b) with
        | error e1 =>
          rw [hfe, exMap_error] at h
          cases h
          exact Or.inr (Or.inr (forwardElim_error _ 0 _ rfl hfe))
        | ok aug =>
          rw [hfe, exMap_ok] at h
          exact Except.noConfusion h

/-! ## C3: the linear solver contract and its propagation -/

/-- The running value of the pivot fold is the absolute value at the
selected row, and equals the running maximum of the candidates. -/
theorem pivotFold_snd (f : ℕ → ℚ) :
    ∀ (rows : List ℕ) (acc : ℕ × ℚ), acc.2 = f acc.1 →
      (rows.foldl (fun acc row =>
        let v := f row
        if v > acc.2 then (row, v) else acc) acc).2 =
        f (rows.foldl (fun acc row =>
          let v := f row
          if v > acc.2 then (row, v) else acc) acc).1 ∧
      (rows.foldl (fun acc row =>
        let v := f row
        if v > acc.2 then (row, v) else acc) acc).2 =
        (rows.map f).foldl max acc.2 := by
  intro rows
  induction rows with
  | nil => intro acc hacc; exact ⟨hacc, rfl⟩
  | cons x xs ih =>
    intro acc hacc
    rw [List.foldl_cons, List.map_cons, List.foldl_cons]
    show ((xs.foldl _ (if f x > acc.2 then (x, f x) else acc)).2 = _) ∧
      ((xs.foldl _ (if f x > acc.2 then (x, f x) else acc)).2 =
        (xs.map f).foldl max (max acc.2 (f x)))
    by_cases hx : f x > acc.2
    · rw [if_pos hx]
      have h := ih (x, f x) rfl
      refine ⟨h.1, ?_⟩
      rw [h.2, max_eq_right (le_of_lt hx)]
    · rw [if_neg hx]
      have h := ih acc hacc
      refine ⟨h.1, ?_⟩
      rw [h.2, max_eq_left (not_lt.mp hx)]

/-- The pivot row selected by the fold lies among the candidates. -/
theorem pivotFold_fst (f : ℕ → ℚ) :
    ∀ (rows : List ℕ) (acc : ℕ × ℚ),
      (rows.foldl (fun acc row =>
        let v := f row
        if v > acc.2 then (row, v) else acc) acc).1 = acc.1 ∨
      (rows.foldl (fun acc row =>
        let v := f row
        if v > acc.2 then (row, v) else acc) acc).1 ∈ rows := by
  intro rows
  induction rows with
  | nil => intro acc; exact Or.inl rfl
  | cons x xs ih =>
    intro acc
    rw [List.foldl_cons]
    show ((xs.foldl _ (if f x > acc.2 then (x, f x) else acc)).1 = acc.1 ∨ _)
    by_cases hx : f x > acc.2
    · rw [if_pos hx]
      rcases ih (x, f x) with h | h
      · exact Or.inr (h ▸ List.mem_cons_self x xs)
      · exact Or.inr (List.mem_cons_of_mem x h)
    · rw [if_neg hx]
      rcases ih acc with h | h
      · exact Or.inl h
      · exact Or.inr (List.mem_cons_of_mem x h)

/-- The row selected by `findPivot` stays in range. -/
theorem findPivot_fst_lt {aug : List (List ℚ)} {col n : ℕ} (hcol : col < n) :
    (findPivot aug col n).1 < n := by
  unfold findPivot
  rcases pivotFold_fst (fun row => absQ (getQ (getRow aug row) col))
      (List.range' (col + 1) (n - (col + 1)))
      (col, absQ (getQ (getRow aug col) col)) with h | h
  · rw [h]; exact hcol
  · rcases List.mem_range'_1.mp h with ⟨_, h2⟩
    omega

/-- The magnitude returned by `findPivot` is the entry at the selected
row, and is the column maximum `colMaxAbs`. -/
theorem findPivot_snd (aug : List (List ℚ)) (col n : ℕ) :
    (findPivot aug col n).2 =
      absQ (getQ (getRow aug (findPivot aug col n).1) col) ∧
    (findPivot aug col n).2 = colMaxAbs aug col n := by
  unfold findPivot colMaxAbs
  exact pivotFold_snd (fun row => absQ (getQ (getRow aug row) col)) _ _ rfl

theorem swapRows_length (m : List (List ℚ)) (i j : ℕ) :
    (swapRows m i j).length = m.length := by
  simp [swapRows]

/-- After swapping rows `i` and `j ≠ i`, row `i` holds the old row
`j`. -/
theorem getRow_swapRows_fst {m : List (List ℚ)} {i j : ℕ}
    (hi : i < m.length) (hij : j ≠ i) :
    getRow (swapRows m i j) i = getRow m j := by
  simp only [swapRows, getRow, List.getD_eq_getElem?_getD]
  rw [List.getElem?_set_ne hij, List.getElem?_set_self hi]
  rfl

/-- A fold that only `set`s entries keeps the list length. -/
theorem foldl_set_length {α : Type} (g : List α → ℕ → α) :
    ∀ (rows : List ℕ) (m : List α),
      (rows.foldl (fun m row => m.set row (g m row)) m).length = m.length := by
  intro rows
  induction rows with
  | nil => intro m; rfl
  | cons x xs ih =>
    intro m
    rw [List.foldl_cons]
    show (xs.foldl (fun m row => m.set row (g m row)) (m.set x (g m x))).length =
      m.length
    rw [ih (m.set x (g m x)), List.length_set]

theorem elimBelow_length (aug : List (List ℚ)) (col n : ℕ) :
    (elimBelow aug col n).length = aug.length :=
  foldl_set_length (fun m row => elimRow (getRow m col) col n (getRow m row)) _ aug

/-- Zeta-reduced unfolding of one elimination column. -/
theorem elimStep_eq (n col : ℕ) (aug : List (List ℚ)) :
    elimStep n col aug =
      if absQ (getQ (getRow (if (findPivot aug col n).1 ≠ col then
          swapRows aug col (findPivot aug col n).1 else aug) col) col) < eps12 then
        .error (.singularMatrix col)
      else
        .ok (elimBelow (if (findPivot aug col n).1 ≠ col then
          swapRows aug col (findPivot aug col n).1 else aug) col n) := rfl

/-- The entry tested by the `< 1e-12` singularity check is exactly the
column maximum after partial pivoting. -/
theorem elimStep_entry (n col : ℕ) (aug : List (List ℚ))
    (hlen : aug.length = n) (hcol : col < n) :
    absQ (getQ (getRow (if (findPivot aug col n).1 ≠ col then
        swapRows aug col (findPivot aug col n).1 else aug) col) col) =
      colMaxAbs aug col n := by
  by_cases hpc : (findPivot aug col n).1 ≠ col
  · rw [if_pos hpc, getRow_swapRows_fst (by omega) hpc]
    exact ((findPivot_snd aug col n).1).symm.trans (findPivot_snd aug col n).2
  · rw [if_neg hpc]
    have hpc2 : (findPivot aug col n).1 = col := not_not.mp hpc
    have h1 := (findPivot_snd aug col n).1
    rw [hpc2] at h1
    exact h1.symm.trans (findPivot_snd aug col n).2

/-- One elimination column fails with `SingularMatrix` at that column
exactly when the pivot magnitude (the column maximum after partial
pivoting) drops below `1e-12`. -/
theorem elimStep_singular_iff {n col : ℕ} {aug : List (List ℚ)}
    (hlen : aug.length = n) (hcol : col < n) :
    elimStep n col aug = .error (.singularMatrix col) ↔
      colMaxAbs aug col n < eps12 := by
  rw [elimStep_eq, elimStep_entry n col aug hlen hcol]
  split
  · next h => exact iff_of_true rfl h
  · next h => exact iff_of_false (fun hc => Except.noConfusion hc) h

theorem elimStep_ok_length {n col : ℕ} {aug aug2 : List (List ℚ)}
    (h : elimStep n col aug = .ok aug2) : aug2.length = aug.length := by
  rw [elimStep_eq] at h
  split at h <;> split at h
  · exact Except.noConfusion h
  · injection h with h2
    rw [← h2, elimBelow_length, swapRows_length]
  · exact Except.noConfusion h
  · injection h with h2
    rw [← h2, elimBelow_length]

/-- One elimination column either fails singular (with the pivot
magnitude below `1e-12`) or returns a same-size matrix. -/
theorem elimStep_cases {n col : ℕ} {aug : List (List ℚ)}
    (hlen : aug.length = n) (hcol : col < n) :
    (elimStep n col aug = .error (.singularMatrix col) ∧
      colMaxAbs aug col n < eps12) ∨
    ∃ aug2, elimStep n col aug = .ok aug2 ∧ aug2.length = n := by
  by_cases hc : colMaxAbs aug col n < eps12
  · exact Or.inl ⟨(elimStep_singular_iff hlen hcol).mpr hc, hc⟩
  · right
    cases hstep : elimStep n col aug with
    | error e =>
      have he := elimStep_error hstep
      rw [he] at hstep
      exact absurd ((elimStep_singular_iff hlen hcol).mp hstep) hc
    | ok aug2 => exact ⟨aug2, rfl, (elimStep_ok_length hstep).trans hlen⟩

theorem elimFrom_ok_length {n : ℕ} :
    ∀ (k col : ℕ) {aug aug2 : List (List ℚ)},
      elimFrom n col k aug = .ok aug2 → aug2.length = aug.length := by
  intro k
  induction k with
  | zero => intro col aug aug2 h; cases h; rfl
  | succ k ih =>
    intro col aug aug2 h
    simp only [elimFrom] at h
    cases hstep : elimStep n col aug with
    | error e => rw [hstep, exBind_error] at h; cases h
    | ok aug3 =>
      rw [hstep] at h
      simp only [exBind_ok] at h
      exact (ih (col + 1) h).trans (elimStep_ok_length hstep)

theorem backSubGo_length (aug : List (List ℚ)) (n : ℕ) :
    ∀ (k : ℕ) (xs : List ℚ), (backSubGo aug n k xs).length = k + xs.length := by
  intro k
  induction k with
  | zero =>
    intro xs
    simp only [backSubGo]
    omega
  | succ k ih =>
    intro xs
    simp only [backSubGo]
    rw [ih, List.length_cons]
    omega

/-- Back substitution returns a vector of length `n`. -/
theorem backSub_length (aug : List (List ℚ)) (n : ℕ) :
    (backSub aug n).length = n := by
  unfold backSub
  rw [backSubGo_length]
  simp

/-- Forward elimination factors through any number of leading
columns. -/
theorem forwardElim_elimFrom (n : ℕ) :
    ∀ (k col : ℕ) (aug : List (List ℚ)), col + k ≤ n →
      forwardElim n col aug =
        Except.bind (elimFrom n col k aug) (forwardElim n (col + k)) := by
  intro k
  induction k with
  | zero =>
    intro col aug h
    show forwardElim n col aug = Except.bind (.ok aug) (forwardElim n (col + 0))
    rw [exBind_ok]
    rfl
  | succ k ih =>
    intro col aug h
    have hcol : col < n := by omega
    rw [forwardElim, dif_pos hcol]
    simp only [elimFrom]
    cases hstep : elimStep n col aug with
    | error e => simp only [exBind_error]
    | ok aug2 =>
      simp only [exBind_ok]
      rw [ih (col + 1) aug2 (by omega)]
      rw [show col + 1 + k = col + (k + 1) from by omega]

/-- A forward-elimination failure names a column `c` reached with a
successfully eliminated prefix whose column maximum at `c` is below
`1e-12`. -/
theorem forwardElim_error_decomp {n : ℕ} {e : SolveError} :
    ∀ (k col : ℕ) (aug : List (List ℚ)), n - col = k → aug.length = n →
      forwardElim n col aug = .error e →
      ∃ c aug1, col ≤ c ∧ c < n ∧ e = .singularMatrix c ∧
        elimFrom n col (c - col) aug = .ok aug1 ∧ aug1.length = n ∧
        colMaxAbs aug1 c n < eps12 := by
  intro k
  induction k with
  | zero =>
    intro col aug hk hlen h
    rw [forwardElim, dif_neg (by omega)] at h
    cases h
  | succ k ih =>
    intro col aug hk hlen h
    have hcol : col < n := by omega
    rw [forwardElim, dif_pos hcol] at h
    rcases elimStep_cases hlen hcol with ⟨herr, hmax⟩ | ⟨aug2, hok, hlen2⟩
    · rw [herr, exBind_error] at h
      cases h
      refine ⟨col, aug, Nat.le_refl col, hcol, rfl, ?_, hlen, hmax⟩
      rw [Nat.sub_self]
      rfl
    · rw [hok] at h
      simp only [exBind_ok] at h
      obtain ⟨c, aug1, hc1, hc2, he, hel, hlen1, hm⟩ :=
        ih (col + 1) aug2 (by omega) hlen2 h
      refine ⟨c, aug1, by omega, hc2, he, ?_, hlen1, hm⟩
      have hd : c - col = (c - (col + 1)) + 1 := by omega
      rw [hd]
      simp only [elimFrom]
      rw [hok]
      simp only [exBind_ok]
      exact hel

/-- Conversely, a successfully eliminated prefix whose column maximum
drops below `1e-12` makes forward elimination fail singular at that
column. -/
theorem forwardElim_singular_of {n c : ℕ} {aug0 aug : List (List ℚ)}
    (hlen0 : aug0.length = n) (hc : c < n)
    (hel : elimFrom n 0 c aug0 = .ok aug)
    (hmax : colMaxAbs aug c n < eps12) :
    forwardElim n 0 aug0 = .error (.singularMatrix c) := by
  have hlen : aug.length = n := (elimFrom_ok_length c 0 hel).trans hlen0
  have hcomp := forwardElim_elimFrom n c 0 aug0 (by omega)
  rw [hel] at hcomp
  simp only [exBind_ok] at hcomp
  rw [hcomp, Nat.zero_add, forwardElim, dif_pos hc,
    (elimStep_singular_iff hlen hc).mpr hmax]
  rfl

/-- C3: for a square `n × n` system (`A` of length `n` whose first row
has length `n`, `b` of length `n`), `solveLinearSystem` either returns
a solution vector of length `n` or fails with `SingularMatrix`; it
fails with `SingularMatrix c` exactly when forward elimination reaches
column `c < n` with the pivot magnitude there — the largest absolute
value remaining in that column after partial pivoting — below `1e-12`;
and both the beam solver (`ContinuousBeamSolver.solve`) and the frame
solver (`FrameAnalysisSolver.solveDisplacements`) propagate any error
of `solveLinearSystem` on their assembled system unmodified to their
caller. -/
theorem C3_solveLinearSystem_contract (A : List (List ℚ)) (b : List ℚ) (n : ℕ)
    (hA : A.length = n) (hrow : (A.headD []).length = n) (hb : b.length = n) :
    ((∃ x, solveLinearSystem A b = .ok x ∧ x.length = n) ∨
      ∃ c, c < n ∧ solveLinearSystem A b = .error (.singularMatrix c)) ∧
    (∀ c, solveLinearSystem A b = .error (.singularMatrix c) ↔
      (c < n ∧ ∃ aug,
        elimFrom n 0 c (List.zipWith (fun row bi => row ++ [bi]) A b) = .ok aug ∧
        colMaxAbs aug c n < eps12)) ∧
    (∀ (beam : ContinuousBeamData) (fems : List (String × (ℚ × ℚ)))
        (e : SolveError),
      validateBeam beam (sortedNodesOf beam) = .ok () →
      femAll beam = .ok fems →
      ¬(identifyDOFs (sortedNodesOf beam)).length = 0 →
      solveLinearSystem
        (buildSystem beam (sortedNodesOf beam)
          (identifyDOFs (sortedNodesOf beam)) fems).1
        (buildSystem beam (sortedNodesOf beam)
          (identifyDOFs (sortedNodesOf beam)) fems).2 = .error e →
      ContinuousBeamSolver.solve beam = .error e) ∧
    (∀ (geom : FrameGeom) (frame : FrameData)
        (fems : List (String × FrameFEMResult))
        (e : SolveError),
      femAllFrame geom frame = .ok fems →
      0 < (assignDOFs frame.nodes frame.isSway).idx →
      solveLinearSystem
        (buildGlobalStiffnessMatrix geom frame
          (assignDOFs frame.nodes frame.isSway).maps
          (assignDOFs frame.nodes frame.isSway).idx)
        (buildGlobalLoadVector geom frame fems
          (assignDOFs frame.nodes frame.isSway).maps
          (assignDOFs frame.nodes frame.isSway).idx) = .error e →
      FrameAnalysisSolver.solveDisplacements geom frame = .error e) := by
  subst hA
  have haug0 : (List.zipWith (fun row bi => row ++ [bi]) A b).length = A.length := by
    rw [List.length_zipWith, hb, min_self]
  refine ⟨?_, ?_, ?_, ?_⟩
  · by_cases hn : A.length = 0
    · left
      refine ⟨[], ?_, by simp [hn]⟩
      simp only [solveLinearSystem]
      rw [if_pos hn]
    · cases hfe : forwardElim A.length 0
          (List.zipWith (fun row bi => row ++ [bi]) A b) with
      | ok aug =>
        left
        refine ⟨backSub aug A.length, ?_, backSub_length aug A.length⟩
        simp only [solveLinearSystem]
        rw [if_neg hn, if_neg (not_ne_iff.mpr hrow), if_neg (not_ne_iff.mpr hb),
          hfe, exMap_ok]
      | error e =>
        right
        obtain ⟨c, aug1, _, hc2, he, _, _, _⟩ :=
          forwardElim_error_decomp A.length 0 _ rfl haug0 hfe
        refine ⟨c, hc2, ?_⟩
        simp only [solveLinearSystem]
        rw [if_neg hn, if_neg (not_ne_iff.mpr hrow), if_neg (not_ne_iff.mpr hb),
          hfe, exMap_error, he]
  · intro c
    constructor
    · intro h
      simp only [solveLinearSystem] at h
      by_cases hn : A.length = 0
      · rw [if_pos hn] at h
        cases h
      · rw [if_neg hn, if_neg (not_ne_iff.mpr hrow),
          if_neg (not_ne_iff.mpr hb)] at h
        cases hfe : forwardElim A.length 0
            (List.zipWith (fun row bi => row ++ [bi]) A b) with
        | ok aug =>
          rw [hfe, exMap_ok] at h
          cases h
        | error e =>
          rw [hfe, exMap_error] at h
          cases h
          obtain ⟨c2, aug1, _, hc2, he, hel, _, hm⟩ :=
            forwardElim_error_decomp A.length 0 _ rfl haug0 hfe
          injection he with he2
          subst he2
          refine ⟨hc2, aug1, ?_, hm⟩
          rw [Nat.sub_zero] at hel
          exact hel
    · rintro ⟨hc, aug, hel, hm⟩
      have hfe := forwardElim_singular_of haug0 hc hel hm
      simp only [solveLinearSystem]
      rw [if_neg (by omega : ¬A.length = 0), if_neg (not_ne_iff.mpr hrow),
        if_neg (not_ne_iff.mpr hb), hfe, exMap_error]
  · intro beam fems e hval hfem hdof hsol
    simp only [ContinuousBeamSolver.solve]
    rw [hval]
    simp only [exBind_ok]
    rw [hfem]
    simp only [exBind_ok]
    rw [if_neg hdof, hsol, exMap_error]
  · intro geom frame fems e hfems hidx hsol
    simp only [FrameAnalysisSolver.solveDisplacements]
    rw [hfems]
    simp only [exBind_ok]
    rw [if_pos hidx, hsol]

/-- C3 witness: the concrete square system `A = [[1,2],[3,4]]`,
`b = [5,6]` satisfies the dimension hypotheses and the solver contract
instantiated there. -/
theorem C3_solveLinearSystem_contract_witness :
    ([[(1 : ℚ), 2], [3, 4]].length = 2 ∧ [(5 : ℚ), 6].length = 2 ∧
      ([[(1 : ℚ), 2], [3, 4]].headD []).length = 2) ∧
    ((∃ x, solveLinearSystem [[(1 : ℚ), 2], [3, 4]] [5, 6] = .ok x ∧
        x.length = 2) ∨
      ∃ c, c < 2 ∧ solveLinearSystem [[(1 : ℚ), 2], [3, 4]] [5, 6] =
        .error (.singularMatrix c)) :=
  ⟨⟨rfl, rfl, rfl⟩,
    (C3_solveLinearSystem_contract [[1, 2], [3, 4]] [5, 6] 2 rfl rfl rfl).1⟩

/-! ## Permutation facts about the node sort -/

theorem insertByPos_perm (x : NodeData) (l : List NodeData) :
    (insertByPos x l).Perm (x :: l) := by
  induction l with
  | nil => exact List.Perm.refl _
  | cons y ys ih =>
    unfold insertByPos
    split
    · exact List.Perm.refl _
    · exact (ih.cons y).trans (List.Perm.swap x y ys)

theorem sortedNodesOf_perm (beam : ContinuousBeamData) :
    (sortedNodesOf beam).Perm beam.nodes := by
  unfold sortedNodesOf
  induction beam.nodes with
  | nil => exact List.Perm.refl _
  | cons x xs ih =>
    exact (insertByPos_perm x (xs.foldr insertByPos [])).trans (ih.cons x)

/-! ## C4: UnstableStructure validation -/

/-- C4: `solve` fails with one of the three validation errors (the
specification's `UnstableStructure`) exactly when the model has fewer
than 2 nodes, fewer than 1 span, or a total restraint count below 2
(fixed = 2, pinned/roller = 1, free = 0); in particular such a model
never yields a result. -/
theorem C4_unstable_iff (beam : ContinuousBeamData) :
    (∃ e, ContinuousBeamSolver.solve beam = .error e ∧
      (e = .tooFewNodes ∨ e = .tooFewSpans ∨ e = .insufficientRestraints)) ↔
    (beam.nodes.length < 2 ∨ beam.spans.length < 1 ∨
      (beam.nodes.map (fun n => restraintsOf n.supportType)).sum < 2) := by
  have hperm := sortedNodesOf_perm beam
  have hlen : (sortedNodesOf beam).length = beam.nodes.length := hperm.length_eq
  have hsum : ((sortedNodesOf beam).map (fun n => restraintsOf n.supportType)).sum
      = (beam.nodes.map (fun n => restraintsOf n.supportType)).sum :=
    (hperm.map _).sum_eq
  constructor
  · rintro ⟨e, hsolve, he⟩
    by_contra hcond
    push_neg at hcond
    obtain ⟨h1, h2, h3⟩ := hcond
    have hval : validateBeam beam (sortedNodesOf beam) = .ok () := by
      unfold validateBeam
      rw [if_neg (by omega : ¬(sortedNodesOf beam).length < 2),
        if_neg (by omega : ¬beam.spans.length < 1),
        if_neg (by rw [hsum]; omega)]
    simp only [ContinuousBeamSolver.solve] at hsolve
    rw [hval, exBind_ok] at hsolve
    cases hfem : femAll beam with
    | error e1 =>
      rw [hfem, exBind_error] at hsolve
      cases hsolve
      have := femAll_error hfem
      subst this
      rcases he with h | h | h <;> cases h
    | ok fems =>
      rw [hfem, exBind_ok] at hsolve
      split at hsolve
      · exact Except.noConfusion hsolve
      · cases hlin : solveLinearSystem
            (buildSystem beam (sortedNodesOf beam)
              (identifyDOFs (sortedNodesOf beam)) fems).1
            (buildSystem beam (sortedNodesOf beam)
              (identifyDOFs (sortedNodesOf beam)) fems).2 with
        | error e2 =>
          rw [hlin, exMap_error] at hsolve
          cases hsolve
          rcases solveLinearSystem_error hlin with h | h | ⟨c, h⟩ <;>
            subst h <;> rcases he with h | h | h <;> cases h
        | ok theta =>
          rw [hlin, exMap_ok] at hsolve
          exact Except.noConfusion hsolve
  · intro hcond
    by_cases h1 : (sortedNodesOf beam).length < 2
    · refine ⟨.tooFewNodes, ?_, Or.inl rfl⟩
      simp only [ContinuousBeamSolver.solve, validateBeam, if_pos h1, Except.bind]
    · by_cases h2 : beam.spans.length < 1
      · refine ⟨.tooFewSpans, ?_, Or.inr (Or.inl rfl)⟩
        simp only [ContinuousBeamSolver.solve, validateBeam, if_neg h1,
          if_pos h2, Except.bind]
      · have h3 : ((sortedNodesOf beam).map
            (fun n => restraintsOf n.supportType)).sum < 2 := by
          rw [hsum]
          rcases hcond with h | h | h
          · omega
          · omega
          · exact h
        refine ⟨.insufficientRestraints, ?_, Or.inr (Or.inr rfl)⟩
        simp only [ContinuousBeamSolver.solve, validateBeam, if_neg h1,
          if_neg h2, if_pos h3, Except.bind]

/-- Witness: `C4_unstable_iff` at a single-node beam with one span and
no restraints: `solve` raises a validation error. -/
theorem C4_unstable_iff_witness :
    ∃ e, ContinuousBeamSolver.solve
        { nodes := [{ id := "n", position := 0, supportType := .free }]
          spans := [{ id := "s", nodeStartId := "n", nodeEndId := "n",
                      length := 1, eiMode := .direct, ei := some 1 }]
          loads := [] } = .error e ∧
      (e = .tooFewNodes ∨ e = .tooFewSpans ∨ e = .insufficientRestraints) :=
  (C4_unstable_iff _).mpr (by norm_num)

/-! ## C8: moment reactions at fixed nodes -/

/-- A successful `solve` always returns the result assembled by
`mkBeamResult` (for some rotation map and FEM table). -/
theorem solve_ok_mk {beam : ContinuousBeamData} {res : BeamResult}
    (h : ContinuousBeamSolver.solve beam = .ok res) :
    ∃ rotations femBySpan, femAll beam = .ok femBySpan ∧
      res = mkBeamResult beam (sortedNodesOf beam) rotations femBySpan := by
  simp only [ContinuousBeamSolver.solve] at h
  cases hval : validateBeam beam (sortedNodesOf beam) with
  | error e => rw [hval, exBind_error] at h; cases h
  | ok u =>
    rw [hval] at h
    simp only [exBind_ok] at h
    cases hfem : femAll beam with
    | error e => rw [hfem, exBind_error] at h; cases h
    | ok fems =>
      rw [hfem] at h
      simp only [exBind_ok] at h
      split at h
      · injection h with h2
        exact ⟨_, fems, rfl, h2.symm⟩
      · cases hsol : solveLinearSystem
            (buildSystem beam (sortedNodesOf beam)
              (identifyDOFs (sortedNodesOf beam)) fems).1
            (buildSystem beam (sortedNodesOf beam)
              (identifyDOFs (sortedNodesOf beam)) fems).2 with
        | error e => rw [hsol, exMap_error] at h; cases h
        | ok theta =>
          rw [hsol, exMap_ok] at h
          injection h with h2
          exact ⟨_, fems, rfl, h2.symm⟩

/-- The moment reaction computed for a fixed node whose first adjacent
span and matching end-moment record are known. -/
theorem reactionAtNode_moment (beam : ContinuousBeamData)
    (ems : List SpanEndMoments) (node : NodeData)
    (hfix : node.supportType = .fixed) {span : SpanData} {s : Bool}
    (hhead : (findSpansAtNode beam.spans node.id).head? = some (span, s))
    {sm : SpanEndMoments}
    (hfind : ems.find? (fun m => m.spanId = span.id) = some sm) :
    (reactionAtNode beam ems node).moment =
      some (if s then -sm.mStart else sm.mEnd) := by
  simp only [reactionAtNode]
  rw [if_pos hfix, hhead]
  show (match ems.find? (fun m => m.spanId = span.id) with
    | some sm => some (if s then -sm.mStart else sm.mEnd)
    | none => none) = some (if s then -sm.mStart else sm.mEnd)
  rw [hfind]

/-- C8 (amended): in a successfully solved beam, a fixed node's
reported moment reaction is `some (−mStart)` of the first adjacent
span when the node is that span's start node — the NEGATED start
moment, not `mStart` itself as the claim states — and `some mEnd` when
it is that span's end node. -/
theorem C8_fixed_moment (beam : ContinuousBeamData) (res : BeamResult)
    (hsolve : ContinuousBeamSolver.solve beam = .ok res) (node : NodeData)
    (hnode : node ∈ sortedNodesOf beam) (hfix : node.supportType = .fixed)
    (span : SpanData) (s : Bool)
    (hhead : (findSpansAtNode beam.spans node.id).head? = some (span, s))
    (sm : SpanEndMoments)
    (hfind : res.endMoments.find? (fun m => m.spanId = span.id) = some sm) :
    reactionAtNode beam res.endMoments node ∈ res.reactions ∧
    (reactionAtNode beam res.endMoments node).nodeId = node.id ∧
    (reactionAtNode beam res.endMoments node).moment =
      some (if s then -sm.mStart else sm.mEnd) := by
  obtain ⟨rots, fems, _, hres⟩ := solve_ok_mk hsolve
  refine ⟨?_, rfl, reactionAtNode_moment beam res.endMoments node hfix hhead hfind⟩
  have hmem : node ∈ (sortedNodesOf beam).filter (fun n => n.supportType ≠ .free) :=
    List.mem_filter.mpr ⟨hnode, by simp [hfix]⟩
  rw [hres]
  exact List.mem_map_of_mem _ hmem

/-- C8 witness: on the fixed–fixed beam `beamC8` the solver returns
`resC8`, and the amended statement instantiates at its start node. -/
theorem C8_fixed_moment_witness :
    ContinuousBeamSolver.solve beamC8 = .ok resC8 ∧
    nodeM0C8.supportType = .fixed ∧
    (reactionAtNode beamC8 resC8.endMoments nodeM0C8 ∈ resC8.reactions ∧
      (reactionAtNode beamC8 resC8.endMoments nodeM0C8).nodeId = nodeM0C8.id ∧
      (reactionAtNode beamC8 resC8.endMoments nodeM0C8).moment =
        some (if true then -smC8.mStart else smC8.mEnd)) :=
  ⟨by with_unfolding_all decide, rfl,
    C8_fixed_moment beamC8 resC8 (by with_unfolding_all decide) nodeM0C8
      (by with_unfolding_all decide) rfl spanC8 true
      (by with_unfolding_all decide) smC8 (by with_unfolding_all decide)⟩

/-- C8 counterexample: on `beamC8` the single span has `mStart = −5`,
yet the moment reaction reported at the fixed start node `m0` is
`some 5 = some (−mStart)`, not `some mStart` — the claim's value
`mStart` differs from the reported one, `5 ≠ −5`. -/
theorem C8_counterexample :
    ContinuousBeamSolver.solve beamC8 = .ok resC8 ∧
    resC8.endMoments.map (fun m => (m.spanId, m.mStart, m.mEnd)) =
      [("fs", (-5 : ℚ), (5 : ℚ))] ∧
    (findSpansAtNode beamC8.spans "m0").head? = some (spanC8, true) ∧
    resC8.reactions.map (fun r => (r.nodeId, r.moment)) =
      [("m0", some (5 : ℚ)), ("m1", some (5 : ℚ))] ∧
    ¬((5 : ℚ) = -5) := by
  refine ⟨by with_unfolding_all decide, by with_unfolding_all decide,
    by with_unfolding_all decide, by with_unfolding_all decide, by norm_num⟩

/-! ## C1: equilibrium of vertical reactions -/

theorem sum_map_add {α : Type} (f g : α → ℚ) :
    ∀ l : List α,
      (l.map (fun x => f x + g x)).sum = (l.map f).sum + (l.map g).sum := by
  intro l
  induction l with
  | nil => simp
  | cons x xs ih =>
    rw [List.map_cons, List.sum_cons, List.map_cons, List.sum_cons,
      List.map_cons, List.sum_cons, ih]
    ring

/-- Double sums over lists commute. -/
theorem sum_comm_lemma {α β : Type} (g : α → β → ℚ) :
    ∀ (xs : List α) (ys : List β),
      (xs.map (fun x => (ys.map (fun y => g x y)).sum)).sum =
        (ys.map (fun y => (xs.map (fun x => g x y)).sum)).sum := by
  intro xs
  induction xs with
  | nil => intro ys; simp
  | cons x xs ih =>
    intro ys
    rw [List.map_cons, List.sum_cons, ih,
      ← sum_map_add (fun y => g x y) (fun y => (xs.map (fun x => g x y)).sum) ys]
    rfl

theorem sum_ite_key_zero {α : Type} (key : α → String) (c : ℚ) :
    ∀ (xs : List α) (k : String), k ∉ xs.map key →
      (xs.map (fun x => if k = key x then c else 0)).sum = 0 := by
  intro xs
  induction xs with
  | nil => intro k _; rfl
  | cons x xs ih =>
    intro k hk
    rw [List.map_cons] at hk
    have h1 : ¬k = key x := fun h => hk (h ▸ List.mem_cons_self _ _)
    have h2 : k ∉ xs.map key := fun h => hk (List.mem_cons_of_mem _ h)
    rw [List.map_cons, List.sum_cons, if_neg h1, ih k h2, add_zero]

/-- Summing `if k = key x then c else 0` over a list with distinct
keys containing `k` yields `c`. -/
theorem sum_ite_key {α : Type} (key : α → String) (c : ℚ) :
    ∀ (xs : List α) (k : String), (xs.map key).Nodup → k ∈ xs.map key →
      (xs.map (fun x => if k = key x then c else 0)).sum = c := by
  intro xs
  induction xs with
  | nil => intro k _ hk; cases hk
  | cons x xs ih =>
    intro k hnd hk
    rw [List.map_cons] at hnd hk
    rw [List.map_cons, List.sum_cons]
    by_cases h : k = key x
    · rw [if_pos h, sum_ite_key_zero key c xs k (h ▸ (List.nodup_cons.mp hnd).1),
        add_zero]
    · rw [if_neg h, zero_add]
      rcases List.mem_cons.mp hk with h2 | h2
      · exact absurd h2 h
      · exact ih k (List.Nodup.of_cons hnd) h2

theorem sum_node_pair {α : Type} (key : α → String) (xs : List α)
    (hnd : (xs.map key).Nodup) (k1 k2 : String) (h1 : k1 ∈ xs.map key)
    (h2 : k2 ∈ xs.map key) (A B : ℚ) :
    (xs.map (fun x =>
      (if k1 = key x then A else 0) + (if k2 = key x then B else 0))).sum =
      A + B := by
  rw [sum_map_add (fun x => if k1 = key x then A else 0)
    (fun x => if k2 = key x then B else 0) xs,
    sum_ite_key key A xs k1 hnd h1, sum_ite_key key B xs k2 hnd h2]

theorem sum_map_flatMap {α β : Type} (F : α → List β) (h : β → ℚ) :
    ∀ l : List α, ((l.flatMap F).map h).sum =
      (l.map (fun x => ((F x).map h).sum)).sum := by
  intro l
  induction l with
  | nil => rfl
  | cons x xs ih =>
    rw [List.flatMap_cons, List.map_append, List.sum_append, ih, List.map_cons,
      List.sum_cons]

theorem sum_map_if_single {β : Type} (h : β → ℚ) (c : Prop) [Decidable c]
    (a : β) : ((if c then [a] else []).map h).sum = if c then h a else 0 := by
  split <;> simp

/-- The vertical reaction at a node, written as a sum over all spans
with the two attachment cases made explicit. -/
theorem reactionAtNode_vertical (beam : ContinuousBeamData)
    (ems : List SpanEndMoments) (nd : NodeData) :
    (reactionAtNode beam ems nd).vertical =
      (beam.spans.map (fun s =>
        (if s.nodeStartId = nd.id then
          (match ems.find? (fun m => m.spanId = s.id) with
           | none => 0
           | some sm => calculateLoadReaction beam.loads s true -
               (sm.mStart - sm.mEnd) / s.length)
         else 0) +
        (if s.nodeEndId = nd.id then
          (match ems.find? (fun m => m.spanId = s.id) with
           | none => 0
           | some sm => calculateLoadReaction beam.loads s false +
               (sm.mStart - sm.mEnd) / s.length)
         else 0))).sum := by
  show ((findSpansAtNode beam.spans nd.id).map _).sum = _
  simp only [findSpansAtNode]
  rw [sum_map_flatMap]
  refine congrArg List.sum (List.map_congr_left ?_)
  intro s _
  rw [List.map_append, List.sum_append, sum_map_if_single, sum_map_if_single]
  rfl

/-- For one span, the two simply-supported end reactions add up to the
resultant of the loads on the span (the chord term cancels). -/
theorem loadReaction_pair {loads : List BeamLoad} {s : SpanData}
    (hL : loads.filter (fun l => l.spanId = s.id) ≠ [] → 0 < s.length) :
    calculateLoadReaction loads s true + calculateLoadReaction loads s false =
      ((loads.filter (fun l => l.spanId = s.id)).map loadResultant).sum := by
  cases hf : loads.filter (fun l => l.spanId = s.id) with
  | nil =>
    simp only [calculateLoadReaction]
    rw [hf]
    simp
  | cons x xs =>
    have hL2 : s.length ≠ 0 := ne_of_gt (hL (by rw [hf]; simp))
    simp only [calculateLoadReaction]
    rw [hf, ← sum_map_add]
    refine congrArg List.sum (List.map_congr_left ?_)
    intro l _
    cases l with
    | point i sp m a =>
      simp only [loadResultant, if_pos]
      field_simp
      ring
    | udl i sp m a b =>
      simp only [loadResultant, if_pos]
      field_simp
      ring
    | vdl i sp w1 w2 a b =>
      simp only [loadResultant, if_pos]
      field_simp
      ring
    | moment i sp m a =>
      simp [loadResultant]

/-- Distinct span ids partition the loads: summing the per-span
filtered sums recovers the sum over all loads. -/
theorem sum_filter_partition (spans : List SpanData) (f : BeamLoad → ℚ)
    (hnd : (spans.map (fun s => s.id)).Nodup) :
    ∀ loads : List BeamLoad,
      (∀ l ∈ loads, l.spanId ∈ spans.map (fun s => s.id)) →
      (spans.map (fun s =>
        ((loads.filter (fun l => l.spanId = s.id)).map f).sum)).sum =
        (loads.map f).sum := by
  intro loads
  induction loads with
  | nil =>
    intro _
    simp
  | cons x xs ih =>
    intro href
    have hx : x.spanId ∈ spans.map (fun s => s.id) :=
      href x (List.mem_cons_self x xs)
    have hxs : ∀ l ∈ xs, l.spanId ∈ spans.map (fun s => s.id) :=
      fun l hl => href l (List.mem_cons_of_mem x hl)
    have hper : ∀ s ∈ spans,
        (((x :: xs).filter (fun l => l.spanId = s.id)).map f).sum =
          (if x.spanId = s.id then f x else 0) +
            ((xs.filter (fun l => l.spanId = s.id)).map f).sum := by
      intro s _
      by_cases h : x.spanId = s.id
      · rw [List.filter_cons_of_pos (by simpa using h), List.map_cons,
          List.sum_cons, if_pos h]
      · rw [List.filter_cons_of_neg (by simpa using h), if_neg h, zero_add]
    calc (spans.map (fun s =>
            (((x :: xs).filter (fun l => l.spanId = s.id)).map f).sum)).sum
        = (spans.map (fun s =>
            (if x.spanId = s.id then f x else 0) +
              ((xs.filter (fun l => l.spanId = s.id)).map f).sum)).sum :=
          congrArg List.sum (List.map_congr_left hper)
      _ = (spans.map (fun s => if x.spanId = s.id then f x else 0)).sum +
          (spans.map (fun s =>
            ((xs.filter (fun l => l.spanId = s.id)).map f).sum)).sum :=
          sum_map_add _ _ spans
      _ = f x + (xs.map f).sum := by
          rw [sum_ite_key (fun s => s.id) (f x) spans x.spanId hnd hx, ih hxs]
      _ = ((x :: xs).map f).sum := by rw [List.map_cons, List.sum_cons]

/-- For a span of the beam, the two attachment terms of the vertical
reaction sum to the resultant of the loads on that span. -/
theorem span_pair_sum (beam : ContinuousBeamData) (rots : List (String × ℚ))
    (fems : List (String × (ℚ × ℚ))) (s : SpanData) (hs : s ∈ beam.spans)
    (hL : beam.loads.filter (fun l => l.spanId = s.id) ≠ [] → 0 < s.length) :
    (match (calculateEndMoments beam (sortedNodesOf beam) rots fems).find?
        (fun m => m.spanId = s.id) with
     | none => 0
     | some sm => calculateLoadReaction beam.loads s true -
         (sm.mStart - sm.mEnd) / s.length) +
    (match (calculateEndMoments beam (sortedNodesOf beam) rots fems).find?
        (fun m => m.spanId = s.id) with
     | none => 0
     | some sm => calculateLoadReaction beam.loads s false +
         (sm.mStart - sm.mEnd) / s.length) =
    ((beam.loads.filter (fun l => l.spanId = s.id)).map loadResultant).sum := by
  have hfind : (calculateEndMoments beam (sortedNodesOf beam) rots fems).find?
      (fun m => m.spanId = s.id) ≠ none := by
    intro hnone
    rw [List.find?_eq_none] at hnone
    exact absurd (decide_eq_true rfl)
      (hnone _ (List.mem_map_of_mem _ hs))
  cases hfd : (calculateEndMoments beam (sortedNodesOf beam) rots fems).find?
      (fun m => m.spanId = s.id) with
  | none => exact absurd hfd hfind
  | some sm =>
    have h2 := loadReaction_pair hL
    calc (calculateLoadReaction beam.loads s true -
            (sm.mStart - sm.mEnd) / s.length) +
          (calculateLoadReaction beam.loads s false +
            (sm.mStart - sm.mEnd) / s.length)
        = calculateLoadReaction beam.loads s true +
            calculateLoadReaction beam.loads s false := by ring
      _ = ((beam.loads.filter (fun l => l.spanId = s.id)).map
            loadResultant).sum := h2

/-- C1 (amended): for a successfully solved beam whose node and span
ids are distinct, whose spans reference existing nodes and have
positive length, whose loads reference existing spans, which has NO
free nodes, and whose VDL loads all have `w1 + w2 ≠ 0`, the vertical
reactions over the supported nodes sum exactly to the sum of the
applied vertical loads (hence within the stated 1e-3 tolerance).  The
claim's unqualified version over all valid models is false: a free
node breaks the balance (see the cantilever counterexample).  The
last two hypotheses keep the statement within the faithful range of
the embedding: a `w1 = −w2` VDL or a zero-length span sends the
source program down a `NaN` path that `ℚ` cannot represent. -/
theorem C1_equilibrium (beam : ContinuousBeamData) (res : BeamResult)
    (hsolve : ContinuousBeamSolver.solve beam = .ok res)
    (hndid : (beam.nodes.map (fun n => n.id)).Nodup)
    (hspid : (beam.spans.map (fun s => s.id)).Nodup)
    (hsref : ∀ s ∈ beam.spans, s.nodeStartId ∈ beam.nodes.map (fun n => n.id) ∧
      s.nodeEndId ∈ beam.nodes.map (fun n => n.id))
    (hlref : ∀ l ∈ beam.loads, l.spanId ∈ beam.spans.map (fun s => s.id))
    (hnofree : ∀ n ∈ beam.nodes, n.supportType ≠ .free)
    (hslen : ∀ s ∈ beam.spans, 0 < s.length)
    (hvdl : ∀ i sp w1 w2 a b, BeamLoad.vdl i sp w1 w2 a b ∈ beam.loads →
      w1 + w2 ≠ 0) :
    (res.reactions.map (fun r => r.vertical)).sum = totalAppliedLoad beam ∧
    absQ ((res.reactions.map (fun r => r.vertical)).sum -
      totalAppliedLoad beam) ≤ 1 / 1000 := by
  obtain ⟨rots, fems, _, hres⟩ := solve_ok_mk hsolve
  have hLpos : ∀ s ∈ beam.spans,
      beam.loads.filter (fun l => l.spanId = s.id) ≠ [] → 0 < s.length :=
    fun s hs _ => hslen s hs
  have hperm := sortedNodesOf_perm beam
  have hfilt : (sortedNodesOf beam).filter (fun n => n.supportType ≠ .free) =
      sortedNodesOf beam :=
    List.filter_eq_self.mpr (fun n hn => by
      simpa using hnofree n (hperm.mem_iff.mp hn))
  have hmain : (res.reactions.map (fun r => r.vertical)).sum =
      totalAppliedLoad beam := by
    rw [hres]
    show ((((sortedNodesOf beam).filter (fun n => n.supportType ≠ .free)).map
        (reactionAtNode beam
          (calculateEndMoments beam (sortedNodesOf beam) rots fems))).map
        (fun r => r.vertical)).sum = totalAppliedLoad beam
    rw [List.map_map, hfilt]
    show ((sortedNodesOf beam).map (fun nd => (reactionAtNode beam
      (calculateEndMoments beam (sortedNodesOf beam) rots fems) nd).vertical)).sum =
      totalAppliedLoad beam
    rw [List.map_congr_left (fun nd _ => reactionAtNode_vertical beam
      (calculateEndMoments beam (sortedNodesOf beam) rots fems) nd)]
    rw [sum_comm_lemma]
    rw [List.map_congr_left (fun s hs =>
      (hperm.map _).sum_eq.trans
        (sum_node_pair (fun n => n.id) beam.nodes hndid s.nodeStartId
          s.nodeEndId (hsref s hs).1 (hsref s hs).2 _ _))]
    rw [List.map_congr_left (fun s hs =>
      span_pair_sum beam rots fems s hs (hLpos s hs))]
    rw [sum_filter_partition beam.spans loadResultant hspid beam.loads hlref]
    rfl
  refine ⟨hmain, ?_⟩
  rw [hmain, sub_self]
  norm_num [absQ]

/-- C1 witness: the fixed–pinned beam `beamC1W` satisfies every
hypothesis, and its reactions `55/8 + 25/8` sum to the applied load
`10`. -/
theorem C1_equilibrium_witness :
    ContinuousBeamSolver.solve beamC1W = .ok resC1W ∧
    (∀ n ∈ beamC1W.nodes, n.supportType ≠ .free) ∧
    ((resC1W.reactions.map (fun r => r.vertical)).sum =
        totalAppliedLoad beamC1W ∧
      absQ ((resC1W.reactions.map (fun r => r.vertical)).sum -
        totalAppliedLoad beamC1W) ≤ 1 / 1000) :=
  ⟨by with_unfolding_all rfl, by decide,
    C1_equilibrium beamC1W resC1W (by with_unfolding_all rfl) (by decide)
      (by decide) (by decide) (by decide) (by decide) (by decide)
      (by
        intro i sp w1 w2 a b h
        simp only [beamC1W, List.mem_singleton] at h
        cases h)⟩

/-- C1 counterexample: the cantilever `beamC1` is accepted by `solve`
(2 nodes, 1 span, restraint count 2), yet its reactions sum to `0`
while the applied load is `10` — equilibrium fails by far more than
the 1e-3 tolerance, because the load at the FREE tip node never
reaches a support in this solver. -/
theorem C1_counterexample :
    ContinuousBeamSolver.solve beamC1 = .ok resC1 ∧
    (resC1.reactions.map (fun r => r.vertical)).sum = 0 ∧
    totalAppliedLoad beamC1 = 10 ∧
    ¬absQ ((resC1.reactions.map (fun r => r.vertical)).sum -
      totalAppliedLoad beamC1) ≤ 1 / 1000 := by
  refine ⟨by with_unfolding_all rfl, by with_unfolding_all decide,
    by with_unfolding_all decide, by with_unfolding_all decide⟩

/-! ## C9: frame DOF assignment -/

theorem jsGet_append_single {κ α : Type} [DecidableEq κ] (l : List (κ × α))
    (k' : κ) (v : α) (k : κ) :
    jsGet (l ++ [(k', v)]) k = if k' = k then some v else jsGet l k := by
  unfold jsGet
  rw [List.reverse_append]
  by_cases hk : k' = k <;> simp [List.find?, hk]

/-- Branch equation: fixed support. -/
theorem assignStep_fixed (isSway : Bool) (st : DofState) (node : FrameNodeData)
    (h : node.support = some .fixed) :
    assignStep isSway st node =
      { st with maps := st.maps ++ [{ nodeId := node.id }] } := by
  simp [assignStep, h]

/-- Branch equation: pinned support. -/
theorem assignStep_pinned (isSway : Bool) (st : DofState) (node : FrameNodeData)
    (h : node.support = some .pinned) :
    assignStep isSway st node =
      { st with
        maps := st.maps ++ [{ nodeId := node.id, rotDOF := some st.idx }]
        idx := st.idx + 1 } := by
  simp [assignStep, h]

/-- Branch equation: roller support. -/
theorem assignStep_roller (isSway : Bool) (st : DofState) (node : FrameNodeData)
    (h : node.support = some .roller) :
    assignStep isSway st node =
      { st with
        maps := st.maps ++ [{ nodeId := node.id
                              dxDOF := some st.idx
                              rotDOF := some (st.idx + 1) }]
        idx := st.idx + 2 } := by
  simp [assignStep, h]

/-- Branch equation: free node that does not share a story DOF. -/
theorem assignStep_free_own (isSway : Bool) (st : DofState) (node : FrameNodeData)
    (hsup : node.support = none)
    (hcond : (isSway && match node.storyIndex with
              | some s => decide ((0:ℤ) < s)
              | none => false) = false) :
    assignStep isSway st node =
      { st with
        maps := st.maps ++ [{ nodeId := node.id
                              dxDOF := some st.idx
                              dyDOF := some (st.idx + 1)
                              rotDOF := some (st.idx + 2) }]
        idx := st.idx + 3 } := by
  simp only [assignStep, hsup]
  rw [hcond]
  simp

/-- Branch equation: free sway node whose story DOF already exists. -/
theorem assignStep_free_shared_found (st : DofState) (node : FrameNodeData)
    {s : ℤ} {d : ℕ} (hsup : node.support = none)
    (hsi : node.storyIndex = some s) (hs : (0 : ℤ) < s)
    (hfind : jsGet st.story s = some d) :
    assignStep true st node =
      { st with
        maps := st.maps ++ [{ nodeId := node.id
                              dxDOF := some d
                              dyDOF := some st.idx
                              rotDOF := some (st.idx + 1) }]
        idx := st.idx + 2 } := by
  have hdec : decide ((0:ℤ) < s) = true := decide_eq_true hs
  simp [assignStep, hsup, hsi, hdec, hfind]

/-- Branch equation: free sway node allocating its story's DOF. -/
theorem assignStep_free_shared_fresh (st : DofState) (node : FrameNodeData)
    {s : ℤ} (hsup : node.support = none)
    (hsi : node.storyIndex = some s) (hs : (0 : ℤ) < s)
    (hfind : jsGet st.story s = none) :
    assignStep true st node =
      { maps := st.maps ++ [{ nodeId := node.id
                              dxDOF := some st.idx
                              dyDOF := some (st.idx + 1)
                              rotDOF := some (st.idx + 2) }]
        story := st.story ++ [(s, st.idx)]
        idx := st.idx + 3
        sway := st.sway ++ [st.idx] } := by
  have hdec : decide ((0:ℤ) < s) = true := decide_eq_true hs
  simp [assignStep, hsup, hsi, hdec, hfind]

/-- Every `assignDOFs` step appends exactly one mapping. -/
theorem assignStep_maps (isSway : Bool) (st : DofState) (node : FrameNodeData) :
    ∃ m : DOFMapping, (assignStep isSway st node).maps = st.maps ++ [m] := by
  cases hsup : node.support with
  | some sup =>
    cases sup
    · rw [assignStep_fixed isSway st node hsup]; exact ⟨_, rfl⟩
    · rw [assignStep_pinned isSway st node hsup]; exact ⟨_, rfl⟩
    · rw [assignStep_roller isSway st node hsup]; exact ⟨_, rfl⟩
  | none =>
    cases hcond : (isSway && match node.storyIndex with
        | some s => decide ((0:ℤ) < s)
        | none => false) with
    | false => rw [assignStep_free_own isSway st node hsup hcond]; exact ⟨_, rfl⟩
    | true =>
      have hisSway : isSway = true := by
        cases isSway
        · simp at hcond
        · rfl
      subst hisSway
      cases hsi : node.storyIndex with
      | none => rw [hsi] at hcond; simp at hcond
      | some s =>
        have hs : (0 : ℤ) < s := by
          rw [hsi] at hcond
          simpa using hcond
        cases hfind : jsGet st.story s with
        | some d =>
          rw [assignStep_free_shared_found st node hsup hsi hs hfind]
          exact ⟨_, rfl⟩
        | none =>
          rw [assignStep_free_shared_fresh st node hsup hsi hs hfind]
          exact ⟨_, rfl⟩

/-- The DOF counter never decreases. -/
theorem assignStep_idx_mono (isSway : Bool) (st : DofState) (node : FrameNodeData) :
    st.idx ≤ (assignStep isSway st node).idx := by
  cases hsup : node.support with
  | some sup =>
    cases sup
    · rw [assignStep_fixed isSway st node hsup]
    · rw [assignStep_pinned isSway st node hsup]
      exact Nat.le_add_right st.idx 1
    · rw [assignStep_roller isSway st node hsup]
      exact Nat.le_add_right st.idx 2
  | none =>
    cases hcond : (isSway && match node.storyIndex with
        | some s => decide ((0:ℤ) < s)
        | none => false) with
    | false =>
      rw [assignStep_free_own isSway st node hsup hcond]
      exact Nat.le_add_right st.idx 3
    | true =>
      have hisSway : isSway = true := by
        cases isSway
        · simp at hcond
        · rfl
      subst hisSway
      cases hsi : node.storyIndex with
      | none => rw [hsi] at hcond; simp at hcond
      | some s =>
        have hs : (0 : ℤ) < s := by
          rw [hsi] at hcond
          simpa using hcond
        cases hfind : jsGet st.story s with
        | some d =>
          rw [assignStep_free_shared_found st node hsup hsi hs hfind]
          exact Nat.le_add_right st.idx 2
        | none =>
          rw [assignStep_free_shared_fresh st node hsup hsi hs hfind]
          exact Nat.le_add_right st.idx 3

/-- A story's shared DOF, once recorded, survives every later step. -/
theorem assignStep_story_stable (isSway : Bool) (st : DofState)
    (node : FrameNodeData) {s : ℤ} {d : ℕ} (h : jsGet st.story s = some d) :
    jsGet (assignStep isSway st node).story s = some d := by
  cases hsup : node.support with
  | some sup =>
    cases sup
    · rw [assignStep_fixed isSway st node hsup]; exact h
    · rw [assignStep_pinned isSway st node hsup]; exact h
    · rw [assignStep_roller isSway st node hsup]; exact h
  | none =>
    cases hcond : (isSway && match node.storyIndex with
        | some s => decide ((0:ℤ) < s)
        | none => false) with
    | false => rw [assignStep_free_own isSway st node hsup hcond]; exact h
    | true =>
      have hisSway : isSway = true := by
        cases isSway
        · simp at hcond
        · rfl
      subst hisSway
      cases hsi : node.storyIndex with
      | none => rw [hsi] at hcond; simp at hcond
      | some s' =>
        have hs : (0 : ℤ) < s' := by
          rw [hsi] at hcond
          simpa using hcond
        cases hfind : jsGet st.story s' with
        | some d' =>
          rw [assignStep_free_shared_found st node hsup hsi hs hfind]; exact h
        | none =>
          rw [assignStep_free_shared_fresh st node hsup hsi hs hfind]
          simp only
          rw [jsGet_append_single]
          have hne : s' ≠ s := fun hss => by rw [hss, h] at hfind; cases hfind
          rw [if_neg hne]
          exact h

/-- A free node's fresh mapping: the vertical and rotational DOFs are
fresh indices in `[st.idx, idx')`. -/
theorem assignStep_free_dy_rot (isSway : Bool) (st : DofState)
    (node : FrameNodeData) (hsup : node.support = none) :
    ∃ m : DOFMapping, (assignStep isSway st node).maps = st.maps ++ [m] ∧
      (∃ v, m.dyDOF = some v ∧ st.idx ≤ v ∧ v < (assignStep isSway st node).idx) ∧
      (∃ v, m.rotDOF = some v ∧ st.idx ≤ v ∧ v < (assignStep isSway st node).idx) := by
  cases hcond : (isSway && match node.storyIndex with
      | some s => decide ((0:ℤ) < s)
      | none => false) with
  | false =>
    rw [assignStep_free_own isSway st node hsup hcond]
    exact ⟨_, rfl,
      ⟨st.idx + 1, rfl, by omega, by show st.idx + 1 < st.idx + 3; omega⟩,
      ⟨st.idx + 2, rfl, by omega, by show st.idx + 2 < st.idx + 3; omega⟩⟩
  | true =>
    have hisSway : isSway = true := by
      cases isSway
      · simp at hcond
      · rfl
    cases hsi : node.storyIndex with
    | none => rw [hsi] at hcond; simp at hcond
    | some s =>
      subst hisSway
      have hs : (0 : ℤ) < s := by
        rw [hsi] at hcond
        simpa using hcond
      cases hfind : jsGet st.story s with
      | some d =>
        rw [assignStep_free_shared_found st node hsup hsi hs hfind]
        exact ⟨_, rfl,
          ⟨st.idx, rfl, by omega, by show st.idx < st.idx + 2; omega⟩,
          ⟨st.idx + 1, rfl, by omega, by show st.idx + 1 < st.idx + 2; omega⟩⟩
      | none =>
        rw [assignStep_free_shared_fresh st node hsup hsi hs hfind]
        exact ⟨_, rfl,
          ⟨st.idx + 1, rfl, by omega, by show st.idx + 1 < st.idx + 3; omega⟩,
          ⟨st.idx + 2, rfl, by omega, by show st.idx + 2 < st.idx + 3; omega⟩⟩

/-- A free node of a sway frame with story `s > 0`: its horizontal DOF
is recorded in (or read from) the story map. -/
theorem assignStep_free_shared_dx (st : DofState) (node : FrameNodeData)
    (hsup : node.support = none) {s : ℤ} (hsi : node.storyIndex = some s)
    (hs : (0 : ℤ) < s) :
    ∃ m d, (assignStep true st node).maps = st.maps ++ [m] ∧
      m.dxDOF = some d ∧
      jsGet (assignStep true st node).story s = some d := by
  cases hfind : jsGet st.story s with
  | some d =>
    rw [assignStep_free_shared_found st node hsup hsi hs hfind]
    exact ⟨_, d, rfl, rfl, hfind⟩
  | none =>
    rw [assignStep_free_shared_fresh st node hsup hsi hs hfind]
    refine ⟨_, st.idx, rfl, rfl, ?_⟩
    simp only
    rw [jsGet_append_single, if_pos rfl]

/-- A free node of a non-sway frame gets three consecutive fresh
DOFs. -/
theorem assignStep_free_nonsway (st : DofState) (node : FrameNodeData)
    (hsup : node.support = none) :
    assignStep false st node =
      { st with
        maps := st.maps ++ [{ nodeId := node.id
                              dxDOF := some st.idx
                              dyDOF := some (st.idx + 1)
                              rotDOF := some (st.idx + 2) }]
        idx := st.idx + 3 } :=
  assignStep_free_own false st node hsup (by simp)

/-- Unfolding one step of the `assignDOFs` fold over a prefix. -/
theorem assignDOFs_take_succ (nodes : List FrameNodeData) (isSway : Bool)
    (k : ℕ) {nk : FrameNodeData} (hk : nodes[k]? = some nk) :
    assignDOFs (nodes.take (k + 1)) isSway =
      assignStep isSway (assignDOFs (nodes.take k) isSway) nk := by
  unfold assignDOFs
  rw [List.take_succ, hk]
  simp [List.foldl_append]

theorem assignDOFs_take_maps_length (nodes : List FrameNodeData) (isSway : Bool) :
    ∀ k, k ≤ nodes.length →
      (assignDOFs (nodes.take k) isSway).maps.length = k := by
  intro k
  induction k with
  | zero => intro _; simp [assignDOFs]
  | succ k ih =>
    intro hk
    obtain ⟨nk, hnk⟩ : ∃ nk, nodes[k]? = some nk :=
      ⟨_, List.getElem?_eq_getElem (by omega)⟩
    rw [assignDOFs_take_succ nodes isSway k hnk]
    obtain ⟨m, hm⟩ := assignStep_maps isSway _ nk
    rw [hm, List.length_append, ih (by omega)]
    simp

theorem assignDOFs_take_idx_mono (nodes : List FrameNodeData) (isSway : Bool) :
    ∀ k k', k ≤ k' → k' ≤ nodes.length →
      (assignDOFs (nodes.take k) isSway).idx ≤
        (assignDOFs (nodes.take k') isSway).idx := by
  intro k k' hkk
  induction k' with
  | zero => intro _; have : k = 0 := by omega
            subst this; exact le_refl _
  | succ k' ih =>
    intro hk'
    rcases Nat.lt_or_ge k (k' + 1) with hlt | hge
    · obtain ⟨nk, hnk⟩ : ∃ nk, nodes[k']? = some nk :=
        ⟨_, List.getElem?_eq_getElem (by omega)⟩
      rw [assignDOFs_take_succ nodes isSway k' hnk]
      exact le_trans (ih (by omega) (by omega)) (assignStep_idx_mono _ _ _)
    · have : k = k' + 1 := by omega
      subst this
      exact le_refl _

theorem assignDOFs_take_maps_extend (nodes : List FrameNodeData) (isSway : Bool) :
    ∀ k k', k ≤ k' → k' ≤ nodes.length →
      ∃ rest, (assignDOFs (nodes.take k') isSway).maps =
        (assignDOFs (nodes.take k) isSway).maps ++ rest := by
  intro k k' hkk
  induction k' with
  | zero => intro _; have : k = 0 := by omega
            subst this; exact ⟨[], by simp⟩
  | succ k' ih =>
    intro hk'
    rcases Nat.lt_or_ge k (k' + 1) with hlt | hge
    · obtain ⟨nk, hnk⟩ : ∃ nk, nodes[k']? = some nk :=
        ⟨_, List.getElem?_eq_getElem (by omega)⟩
      rw [assignDOFs_take_succ nodes isSway k' hnk]
      obtain ⟨rest1, hrest1⟩ := ih (by omega) (by omega)
      obtain ⟨m, hm⟩ := assignStep_maps isSway _ nk
      exact ⟨rest1 ++ [m], by rw [hm, hrest1, List.append_assoc]⟩
    · have : k = k' + 1 := by omega
      subst this
      exact ⟨[], by simp⟩

theorem assignDOFs_take_story_stable (nodes : List FrameNodeData) (isSway : Bool)
    {s : ℤ} {d : ℕ} :
    ∀ k k', k ≤ k' → k' ≤ nodes.length →
      jsGet (assignDOFs (nodes.take k) isSway).story s = some d →
      jsGet (assignDOFs (nodes.take k') isSway).story s = some d := by
  intro k k' hkk
  induction k' with
  | zero => intro _ h; have : k = 0 := by omega
            subst this; exact h
  | succ k' ih =>
    intro hk' h
    rcases Nat.lt_or_ge k (k' + 1) with hlt | hge
    · obtain ⟨nk, hnk⟩ : ∃ nk, nodes[k']? = some nk :=
        ⟨_, List.getElem?_eq_getElem (by omega)⟩
      rw [assignDOFs_take_succ nodes isSway k' hnk]
      exact assignStep_story_stable isSway _ nk (ih (by omega) (by omega) h)
    · have : k = k' + 1 := by omega
      subst this
      exact h

/-- Indexing the element appended after a known prefix. -/
theorem snoc_index {α : Type} (l : List α) (m : α) (rest : List α) :
    ((l ++ [m]) ++ rest)[l.length]? = some m := by
  rw [List.getElem?_append_left (by simp)]
  rw [List.getElem?_append_right (le_refl _)]
  simp

/-- The mapping of node `i` in the final DOF table is the one created
by the step that consumed node `i`. -/
theorem assignDOFs_maps_get (nodes : List FrameNodeData) (isSway : Bool)
    (i : ℕ) {ni : FrameNodeData} (hni : nodes[i]? = some ni) {m : DOFMapping}
    (hstep : (assignStep isSway (assignDOFs (nodes.take i) isSway) ni).maps =
      (assignDOFs (nodes.take i) isSway).maps ++ [m]) :
    (assignDOFs nodes isSway).maps[i]? = some m := by
  have hilen : i < nodes.length := by
    by_contra hbig
    rw [List.getElem?_eq_none (by omega)] at hni
    cases hni
  obtain ⟨rest, hrest⟩ :=
    assignDOFs_take_maps_extend nodes isSway (i + 1) nodes.length
      (by omega) (le_refl _)
  rw [List.take_length] at hrest
  rw [hrest, assignDOFs_take_succ nodes isSway i hni, hstep]
  have hlen := assignDOFs_take_maps_length nodes isSway i (by omega)
  have hidx := snoc_index (assignDOFs (nodes.take i) isSway).maps m rest
  rw [hlen] at hidx
  exact hidx

/-- C9 (amended): in a sway frame, two distinct free nodes sharing a
defined story index `s > 0` are mapped to one and the same horizontal
DOF index, while their vertical and rotational DOF indices are
distinct; sharing is keyed on `storyIndex > 0` — free nodes at story
0 or with no story index get their own horizontal DOF (see the
counterexample).  In a non-sway frame every free node receives three
consecutive fresh DOF indices of its own, disjoint from every other
node's. -/
theorem C9_sway_dof_sharing (nodes : List FrameNodeData) (i j : ℕ)
    (hij : i < j) {ni nj : FrameNodeData}
    (hni : nodes[i]? = some ni) (hnj : nodes[j]? = some nj)
    (hfi : ni.support = none) (hfj : nj.support = none) :
    (∀ mi mj : DOFMapping,
      (assignDOFs nodes true).maps[i]? = some mi →
      (assignDOFs nodes true).maps[j]? = some mj →
      mi.dyDOF ≠ mj.dyDOF ∧ mi.rotDOF ≠ mj.rotDOF ∧
      (∀ s : ℤ, 0 < s → ni.storyIndex = some s → nj.storyIndex = some s →
        mi.dxDOF = mj.dxDOF ∧ mi.dxDOF.isSome = true)) ∧
    (∀ mi mj : DOFMapping,
      (assignDOFs nodes false).maps[i]? = some mi →
      (assignDOFs nodes false).maps[j]? = some mj →
      ∃ a b : ℕ,
        mi = { nodeId := ni.id, dxDOF := some a, dyDOF := some (a + 1),
               rotDOF := some (a + 2) } ∧
        mj = { nodeId := nj.id, dxDOF := some b, dyDOF := some (b + 1),
               rotDOF := some (b + 2) } ∧
        a + 2 < b) := by
  have hjlen : j < nodes.length := by
    by_contra hbig
    rw [List.getElem?_eq_none (by omega)] at hnj
    cases hnj
  have hilen : i < nodes.length := by omega
  constructor
  · -- sway frame
    intro mi mj hmi hmj
    obtain ⟨m1, hm1, ⟨vy1, hvy1, hvy1lo, hvy1hi⟩, ⟨vr1, hvr1, hvr1lo, hvr1hi⟩⟩ :=
      assignStep_free_dy_rot true (assignDOFs (nodes.take i) true) ni hfi
    obtain ⟨m2, hm2, ⟨vy2, hvy2, hvy2lo, hvy2hi⟩, ⟨vr2, hvr2, hvr2lo, hvr2hi⟩⟩ :=
      assignStep_free_dy_rot true (assignDOFs (nodes.take j) true) nj hfj
    have hmi' := assignDOFs_maps_get nodes true i hni hm1
    have hmj' := assignDOFs_maps_get nodes true j hnj hm2
    rw [hmi'] at hmi
    rw [hmj'] at hmj
    cases hmi
    cases hmj
    have hidx : (assignStep true (assignDOFs (nodes.take i) true) ni).idx ≤
        (assignDOFs (nodes.take j) true).idx := by
      have h1 : (assignDOFs (nodes.take (i + 1)) true).idx =
          (assignStep true (assignDOFs (nodes.take i) true) ni).idx := by
        rw [assignDOFs_take_succ nodes true i hni]
      rw [← h1]
      exact assignDOFs_take_idx_mono nodes true (i + 1) j (by omega) (by omega)
    refine ⟨?_, ?_, ?_⟩
    · rw [hvy1, hvy2]
      intro hcontra
      have : vy1 = vy2 := by injection hcontra
      omega
    · rw [hvr1, hvr2]
      intro hcontra
      have : vr1 = vr2 := by injection hcontra
      omega
    · intro s hs hsi hsj
      obtain ⟨m1', d, hm1', hdx1, hstory1⟩ :=
        assignStep_free_shared_dx (assignDOFs (nodes.take i) true) ni hfi hsi hs
      obtain ⟨m2', d', hm2', hdx2, hstory2⟩ :=
        assignStep_free_shared_dx (assignDOFs (nodes.take j) true) nj hfj hsj hs
      have he1 : m1' = mi := by
        have hsing := List.append_cancel_left (hm1.symm.trans hm1')
        simpa using hsing.symm
      have he2 : m2' = mj := by
        have hsing := List.append_cancel_left (hm2.symm.trans hm2')
        simpa using hsing.symm
      -- the story entry recorded at step i is still there at step j
      have hstory1' : jsGet (assignDOFs (nodes.take (i + 1)) true).story s
          = some d := by
        rw [assignDOFs_take_succ nodes true i hni]
        exact hstory1
      have hstoryj : jsGet (assignDOFs (nodes.take j) true).story s = some d :=
        assignDOFs_take_story_stable nodes true (i + 1) j (by omega)
          (by omega) hstory1'
      -- hence step j found `d` in the story map, so it reused it
      have hd' : d' = d := by
        have hstoryj1 : jsGet (assignDOFs (nodes.take (j + 1)) true).story s
            = some d := by
          rw [assignDOFs_take_succ nodes true j hnj]
          exact assignStep_story_stable true _ nj hstoryj
        have hstoryj1' : jsGet (assignDOFs (nodes.take (j + 1)) true).story s
            = some d' := by
          rw [assignDOFs_take_succ nodes true j hnj]
          exact hstory2
        rw [hstoryj1] at hstoryj1'
        injection hstoryj1' with hv
        exact hv.symm
      rw [← he1, ← he2, hdx1, hdx2, hd']
      exact ⟨rfl, rfl⟩
  · -- non-sway frame
    intro mi mj hmi hmj
    have hstep1 := assignStep_free_nonsway (assignDOFs (nodes.take i) false) ni hfi
    have hstep2 := assignStep_free_nonsway (assignDOFs (nodes.take j) false) nj hfj
    have hmi' := assignDOFs_maps_get nodes false i hni (by rw [hstep1])
    have hmj' := assignDOFs_maps_get nodes false j hnj (by rw [hstep2])
    rw [hmi'] at hmi
    rw [hmj'] at hmj
    cases hmi
    cases hmj
    refine ⟨(assignDOFs (nodes.take i) false).idx,
      (assignDOFs (nodes.take j) false).idx, rfl, rfl, ?_⟩
    have h1 : (assignDOFs (nodes.take (i + 1)) false).idx =
        (assignDOFs (nodes.take i) false).idx + 3 := by
      rw [assignDOFs_take_succ nodes false i hni, hstep1]
    have h2 : (assignDOFs (nodes.take (i + 1)) false).idx ≤
        (assignDOFs (nodes.take j) false).idx :=
      assignDOFs_take_idx_mono nodes false (i + 1) j (by omega) (by omega)
    omega

/-- Witness: `C9_sway_dof_sharing` on a two-story frame whose two
upper free joints share story 1. -/
theorem C9_sway_dof_sharing_witness :
    (∀ mi mj : DOFMapping,
      (assignDOFs
        [{ id := "a", x := 0, y := 3, support := none, storyIndex := some 1 },
         { id := "b", x := 5, y := 3, support := none, storyIndex := some 1 }]
        true).maps[0]? = some mi →
      (assignDOFs
        [{ id := "a", x := 0, y := 3, support := none, storyIndex := some 1 },
         { id := "b", x := 5, y := 3, support := none, storyIndex := some 1 }]
        true).maps[1]? = some mj →
      mi.dyDOF ≠ mj.dyDOF ∧ mi.rotDOF ≠ mj.rotDOF ∧
      (∀ s : ℤ, 0 < s →
        ({ id := "a", x := 0, y := 3, support := none,
           storyIndex := some 1 } : FrameNodeData).storyIndex = some s →
        ({ id := "b", x := 5, y := 3, support := none,
           storyIndex := some 1 } : FrameNodeData).storyIndex = some s →
        mi.dxDOF = mj.dxDOF ∧ mi.dxDOF.isSome = true)) ∧
    (∀ mi mj : DOFMapping,
      (assignDOFs
        [{ id := "a", x := 0, y := 3, support := none, storyIndex := some 1 },
         { id := "b", x := 5, y := 3, support := none, storyIndex := some 1 }]
        false).maps[0]? = some mi →
      (assignDOFs
        [{ id := "a", x := 0, y := 3, support := none, storyIndex := some 1 },
         { id := "b", x := 5, y := 3, support := none, storyIndex := some 1 }]
        false).maps[1]? = some mj →
      ∃ a b : ℕ,
        mi = { nodeId := "a", dxDOF := some a, dyDOF := some (a + 1),
               rotDOF := some (a + 2) } ∧
        mj = { nodeId := "b", dxDOF := some b, dyDOF := some (b + 1),
               rotDOF := some (b + 2) } ∧
        a + 2 < b) :=
  C9_sway_dof_sharing _ 0 1 (by norm_num) rfl rfl rfl rfl

/-- C9 counterexample to the claim as stated: two free nodes of a sway
frame share story index 0, yet each receives its own horizontal DOF
(0 and 3): the rigid-diaphragm sharing only applies to story indices
strictly greater than 0. -/
theorem C9_counterexample :
    ((assignDOFs
      [{ id := "a", x := 0, y := 0, support := none, storyIndex := some 0 },
       { id := "b", x := 5, y := 0, support := none, storyIndex := some 0 }]
      true).maps.map (fun m => m.dxDOF)) = [some 0, some 3] := by
  with_unfolding_all decide

/-! ## C10: `solveLinearSystem` mutates neither argument -/

theorem getD_mem {l : List ℕ} {i d : ℕ} (h : i < l.length) : l.getD i d ∈ l := by
  rw [List.getD_eq_getElem?_getD, List.getElem?_eq_getElem h]
  exact List.getElem_mem h

theorem writeCell_prefix {st : Store} {a : ℕ} {v : List ℚ} {r : ℕ} (h : r ≠ a) :
    (writeCell st a v)[r]? = st[r]? :=
  List.getElem?_set_ne (Ne.symm h)

/-- A fold of writes at addresses `≥ base` leaves every cell below
`base` unchanged. -/
theorem foldl_writeCell_prefix {α : Type} (addr : α → ℕ)
    (val : Store → α → List ℚ) (base : ℕ) :
    ∀ (rows : List α) (st : Store), (∀ x ∈ rows, base ≤ addr x) →
      ∀ r < base,
        (rows.foldl (fun s row => writeCell s (addr row) (val s row)) st)[r]? =
          st[r]? := by
  intro rows
  induction rows with
  | nil => intro st _ r _; rfl
  | cons x xs ih =>
    intro st haddr r hr
    rw [List.foldl_cons]
    rw [ih _ (fun y hy => haddr y (List.mem_cons_of_mem x hy)) r hr]
    exact writeCell_prefix
      (by have := haddr x (List.mem_cons_self x xs); omega)

theorem elimBelowRef_prefix {st : Store} {addrs : List ℕ} {col n base : ℕ}
    (hlen : addrs.length = n) (haddr : ∀ x ∈ addrs, base ≤ x) :
    ∀ r < base, (elimBelowRef st addrs col n)[r]? = st[r]? := by
  intro r hr
  unfold elimBelowRef
  refine foldl_writeCell_prefix (fun row => addrs.getD row 0) _ base _ st ?_ r hr
  intro x hx
  have hxn : x < n := by
    rcases List.mem_range'_1.mp hx with ⟨_, h2⟩
    omega
  exact haddr _ (getD_mem (by omega))

theorem findPivotRef_fst_lt {st : Store} {addrs : List ℕ} {col n : ℕ}
    (hcol : col < n) : (findPivotRef st addrs col n).1 < n := by
  unfold findPivotRef
  rcases pivotFold_fst (fun row => absQ (getQ (readCell st (addrs.getD row 0)) col))
      (List.range' (col + 1) (n - (col + 1)))
      (col, absQ (getQ (readCell st (addrs.getD col 0)) col)) with h | h
  · rw [h]; exact hcol
  · rcases List.mem_range'_1.mp h with ⟨_, h2⟩
    omega

/-- Zeta-reduced unfolding of one store-level elimination column. -/
theorem elimStepRef_eq (n col : ℕ) (st : Store) (addrs : List ℕ) :
    elimStepRef n col st addrs =
      if absQ (getQ (readCell st
          ((if (findPivotRef st addrs col n).1 ≠ col then
              (addrs.set col (addrs.getD (findPivotRef st addrs col n).1 0)).set
                (findPivotRef st addrs col n).1 (addrs.getD col 0)
            else addrs).getD col 0)) col) < eps12 then
        (st, Except.error (SolveError.singularMatrix col))
      else
        (elimBelowRef st
            (if (findPivotRef st addrs col n).1 ≠ col then
              (addrs.set col (addrs.getD (findPivotRef st addrs col n).1 0)).set
                (findPivotRef st addrs col n).1 (addrs.getD col 0)
            else addrs) col n,
          Except.ok
            (if (findPivotRef st addrs col n).1 ≠ col then
              (addrs.set col (addrs.getD (findPivotRef st addrs col n).1 0)).set
                (findPivotRef st addrs col n).1 (addrs.getD col 0)
            else addrs)) := rfl

/-- The two outcomes of one store-level elimination column: the store
untouched with a singularity error, or the elimination writes with a
swapped address list drawn from the old one. -/
theorem elimStepRef_out (base n col : ℕ) (st : Store) (addrs : List ℕ)
    (hcol : col < n) (hlen : addrs.length = n)
    (haddr : ∀ x ∈ addrs, base ≤ x) :
    elimStepRef n col st addrs = (st, .error (.singularMatrix col)) ∨
    ∃ addrs1, elimStepRef n col st addrs =
        (elimBelowRef st addrs1 col n, .ok addrs1) ∧
      addrs1.length = n ∧ (∀ x ∈ addrs1, base ≤ x) := by
  have hp1 : (findPivotRef st addrs col n).1 < n := findPivotRef_fst_lt hcol
  have hlen1 : (if (findPivotRef st addrs col n).1 ≠ col then
      (addrs.set col (addrs.getD (findPivotRef st addrs col n).1 0)).set
        (findPivotRef st addrs col n).1 (addrs.getD col 0)
    else addrs).length = n := by
    split <;> simp [hlen]
  have haddr1 : ∀ x ∈ (if (findPivotRef st addrs col n).1 ≠ col then
      (addrs.set col (addrs.getD (findPivotRef st addrs col n).1 0)).set
        (findPivotRef st addrs col n).1 (addrs.getD col 0)
    else addrs), base ≤ x := by
    intro x hx
    split at hx
    · rcases List.mem_or_eq_of_mem_set hx with hx2 | hx2
      · rcases List.mem_or_eq_of_mem_set hx2 with hx3 | hx3
        · exact haddr x hx3
        · exact hx3 ▸ haddr _ (getD_mem (by omega))
      · exact hx2 ▸ haddr _ (getD_mem (by omega))
    · exact haddr x hx
  rw [elimStepRef_eq]
  set a1 := if (findPivotRef st addrs col n).1 ≠ col then
      (addrs.set col (addrs.getD (findPivotRef st addrs col n).1 0)).set
        (findPivotRef st addrs col n).1 (addrs.getD col 0)
    else addrs with ha1
  split
  · exact Or.inl rfl
  · exact Or.inr ⟨a1, rfl, hlen1, haddr1⟩

set_option maxHeartbeats 2000000 in
theorem forwardElimRef_prefix (n base : ℕ) :
    ∀ (k col : ℕ) (st : Store) (addrs : List ℕ), n - col = k →
      addrs.length = n → (∀ x ∈ addrs, base ≤ x) →
      ∀ r < base, ((forwardElimRef n col st addrs).1)[r]? = st[r]? := by
  intro k
  induction k with
  | zero =>
    intro col st addrs hk _ _ r _
    rw [forwardElimRef, dif_neg (by omega)]
  | succ k ih =>
    intro col st addrs hk hlen haddr r hr
    have hcol : col < n := by omega
    rw [forwardElimRef, dif_pos hcol]
    rcases elimStepRef_out base n col st addrs hcol hlen haddr with
      hout | ⟨addrs1, hout, hlen1, haddr1⟩
    · rw [hout]
    · rw [hout]
      show (forwardElimRef n (col + 1) (elimBelowRef st addrs1 col n) addrs1).1[r]?
        = st[r]?
      rw [ih (col + 1) _ addrs1 (by omega) hlen1 haddr1 r hr]
      exact elimBelowRef_prefix hlen1 haddr1 r hr

/-- C10: `solveLinearSystem` never mutates its arguments.  In the
store-level model — matrix `A` as a list of row addresses, vector `b`
as an address — every cell that existed before the call, in
particular every row of `A` and the vector `b`, holds the same value
after the call returns or fails: the elimination allocates a fresh
augmented copy (`[...row, b[i]]`) at the end of the store and writes
only to those fresh cells. -/
theorem C10_solveLinearSystem_no_mutation (st0 : Store) (argA : List ℕ)
    (argB : ℕ) (hA : ∀ a ∈ argA, a < st0.length) (hB : argB < st0.length) :
    (∀ r < st0.length,
      ((solveLinearSystemRef st0 argA argB).1)[r]? = st0[r]?) ∧
    (∀ a ∈ argA,
      readCell (solveLinearSystemRef st0 argA argB).1 a = readCell st0 a) ∧
    readCell (solveLinearSystemRef st0 argA argB).1 argB = readCell st0 argB := by
  have hmain : ∀ r < st0.length,
      ((solveLinearSystemRef st0 argA argB).1)[r]? = st0[r]? := by
    intro r hr
    simp only [solveLinearSystemRef]
    split
    · rfl
    · split
      · rfl
      · split
        · rfl
        · have hbase : ∀ x ∈ List.range' st0.length argA.length,
              st0.length ≤ x := by
            intro x hx
            exact (List.mem_range'_1.mp hx).1
          have hlen : (List.range' st0.length argA.length).length = argA.length :=
            List.length_range' _ _ _
          have hpre := forwardElimRef_prefix argA.length st0.length
            argA.length 0
            (st0 ++ argA.enum.map
              (fun p => readCell st0 p.2 ++ [getQ (readCell st0 argB) p.1]))
            (List.range' st0.length argA.length) (by omega) hlen hbase r hr
          have happ : (st0 ++ argA.enum.map
              (fun p => readCell st0 p.2 ++ [getQ (readCell st0 argB) p.1]))[r]?
              = st0[r]? := List.getElem?_append_left hr
          cases hfe : forwardElimRef argA.length 0
              (st0 ++ argA.enum.map
                (fun p => readCell st0 p.2 ++ [getQ (readCell st0 argB) p.1]))
              (List.range' st0.length argA.length) with
          | mk st2 res =>
            rw [hfe] at hpre
            cases res <;> simpa [hfe, happ] using hpre
  refine ⟨hmain, ?_, ?_⟩
  · intro a ha
    unfold readCell
    rw [List.getD_eq_getElem?_getD, List.getD_eq_getElem?_getD,
      hmain a (hA a ha)]
  · unfold readCell
    rw [List.getD_eq_getElem?_getD, List.getD_eq_getElem?_getD, hmain argB hB]

/-- Witness: `C10_solveLinearSystem_no_mutation` on a 2×2 system
stored in cells 0, 1 (matrix rows) and 2 (vector). -/
theorem C10_solveLinearSystem_no_mutation_witness :
    (∀ r < ([[1, 2], [3, 4], [5, 6]] : Store).length,
      ((solveLinearSystemRef [[1, 2], [3, 4], [5, 6]] [0, 1] 2).1)[r]? =
        ([[1, 2], [3, 4], [5, 6]] : Store)[r]?) ∧
    (∀ a ∈ [0, 1],
      readCell (solveLinearSystemRef [[1, 2], [3, 4], [5, 6]] [0, 1] 2).1 a =
        readCell [[1, 2], [3, 4], [5, 6]] a) ∧
    readCell (solveLinearSystemRef [[1, 2], [3, 4], [5, 6]] [0, 1] 2).1 2 =
      readCell [[1, 2], [3, 4], [5, 6]] 2 :=
  C10_solveLinearSystem_no_mutation [[1, 2], [3, 4], [5, 6]] [0, 1] 2
    (by intro a ha; fin_cases ha <;> norm_num) (by norm_num)

end CESS
